import Mathlib

/-!
Verification of the Ant-Colony-Simulator core against its specification.

Each section embeds one subsystem of the Python source (src/src/*.py) as
Lean definitions: pure functions become Lean functions, mutable objects
become explicit state records, Python floats become `ℚ` where the code only
performs field operations and comparisons on them, and `ℝ` where the code
uses `math.sqrt`, `math.atan2`, `math.tanh`, `math.exp` or `math.pi`.
Fallible operations (attribute lookups that can raise `AttributeError`)
return `Except`.
-/

namespace AntSim

/-! ### Pheromone layers (src/src/pheromone_model.py)

`PheromoneLayer` stores one scalar grid.  The Python grid is a
`grid_height × grid_width` list of floats indexed `grid[gy][gx]`; we embed it
as a function `ℤ → ℤ → ℚ` (x, then y) together with the bounds, and every
operation guards on the bounds exactly as the source does. -/

structure PheromoneLayer where
  grid_width : ℕ
  grid_height : ℕ
  grid : ℤ → ℤ → ℚ

namespace PheromoneLayer

/-- `PheromoneLayer.__init__`: all cells start at `0.0`. -/
def init (w h : ℕ) : PheromoneLayer :=
  { grid_width := w, grid_height := h, grid := fun _ _ => 0 }

/-- `PheromoneLayer.deposit`: add `amount` at `(gx, gy)` clamped to
`max_value`, only when the cell is inside the grid. -/
def deposit (l : PheromoneLayer) (gx gy : ℤ) (amount max_value : ℚ) :
    PheromoneLayer :=
  if 0 ≤ gx ∧ gx < (l.grid_width : ℤ) ∧ 0 ≤ gy ∧ gy < (l.grid_height : ℤ) then
    { l with grid := fun x y =>
        if x = gx ∧ y = gy then min max_value (l.grid gx gy + amount)
        else l.grid x y }
  else l

/-- `PheromoneLayer.get`: read the cell, `0.0` outside the grid. -/
def get (l : PheromoneLayer) (gx gy : ℤ) : ℚ :=
  if 0 ≤ gx ∧ gx < (l.grid_width : ℤ) ∧ 0 ≤ gy ∧ gy < (l.grid_height : ℤ) then
    l.grid gx gy
  else 0

/-- `PheromoneLayer.evaporate`: multiply every in-grid cell by `rate`. -/
def evaporate (l : PheromoneLayer) (rate : ℚ) : PheromoneLayer :=
  { l with grid := fun x y =>
      if 0 ≤ x ∧ x < (l.grid_width : ℤ) ∧ 0 ≤ y ∧ y < (l.grid_height : ℤ) then
        l.grid x y * rate
      else l.grid x y }

end PheromoneLayer

/-- The two trail layers of `PheromoneModel` (the class has no danger
layer; see the interface table further below). -/
inductive PheromoneKind where
  | food_trail
  | home_trail
deriving DecidableEq

/-- `PheromoneModel` state: two layers plus the geometry configuration.
The constants `max_pheromone = 200.0`, `evaporation_rate = 0.995`,
`detection_threshold = 10.0` and `cell_size = 20` are fixed in
`PheromoneModel.__init__`. -/
structure PheromoneModel where
  width : ℕ
  height : ℕ
  food_trail : PheromoneLayer
  home_trail : PheromoneLayer

namespace PheromoneModel

def cell_size : ℕ := 20

def max_pheromone : ℚ := 200

def evaporation_rate : ℚ := 995 / 1000

def detection_threshold : ℚ := 10

def grid_width (m : PheromoneModel) : ℕ := m.width / cell_size

def grid_height (m : PheromoneModel) : ℕ := m.height / cell_size

/-- `PheromoneModel.__init__(width, height)`. -/
def init (w h : ℕ) : PheromoneModel :=
  { width := w, height := h,
    food_trail := PheromoneLayer.init (w / cell_size) (h / cell_size),
    home_trail := PheromoneLayer.init (w / cell_size) (h / cell_size) }

/-- `PheromoneModel._to_grid`: floor-divide world coordinates by the cell
size and clamp into the grid. -/
def to_grid (m : PheromoneModel) (x y : ℚ) : ℤ × ℤ :=
  let gx := ⌊x / (cell_size : ℚ)⌋
  let gy := ⌊y / (cell_size : ℚ)⌋
  (max 0 (min gx ((m.grid_width : ℤ) - 1)),
   max 0 (min gy ((m.grid_height : ℤ) - 1)))

/-- `PheromoneModel._get_layer`. -/
def get_layer (m : PheromoneModel) (pt : PheromoneKind) : PheromoneLayer :=
  match pt with
  | .food_trail => m.food_trail
  | .home_trail => m.home_trail

/-- Write back the layer selected by `_get_layer`. -/
def set_layer (m : PheromoneModel) (pt : PheromoneKind) (l : PheromoneLayer) :
    PheromoneModel :=
  match pt with
  | .food_trail => { m with food_trail := l }
  | .home_trail => { m with home_trail := l }

/-- `PheromoneModel.deposit(x, y, amount, ptype)`. -/
def deposit (m : PheromoneModel) (x y amount : ℚ) (pt : PheromoneKind) :
    PheromoneModel :=
  let g := m.to_grid x y
  m.set_layer pt ((m.get_layer pt).deposit g.1 g.2 amount max_pheromone)

/-- `PheromoneModel.deposit_food_trail`. -/
def deposit_food_trail (m : PheromoneModel) (x y amount : ℚ) : PheromoneModel :=
  m.deposit x y amount .food_trail

/-- `PheromoneModel.deposit_home_trail`. -/
def deposit_home_trail (m : PheromoneModel) (x y amount : ℚ) : PheromoneModel :=
  m.deposit x y amount .home_trail

/-- `PheromoneModel.get_strength`. -/
def get_strength (m : PheromoneModel) (x y : ℚ) (pt : PheromoneKind) : ℚ :=
  let g := m.to_grid x y
  (m.get_layer pt).get g.1 g.2

/-- `PheromoneModel.update`: evaporate both layers once. -/
def update (m : PheromoneModel) : PheromoneModel :=
  { m with
    food_trail := m.food_trail.evaporate evaporation_rate,
    home_trail := m.home_trail.evaporate evaporation_rate }

end PheromoneModel

/-- A call made against the pheromone field from the orchestrator or an
agent: a world-coordinate deposit on one of the layers, or one evaporation
pass (`PheromoneModel.update`). -/
inductive PheromoneOp where
  | depositOp (x y amount : ℚ) (pt : PheromoneKind)
  | updateOp
deriving DecidableEq

/-- Amount deposited by an op (`0` for `update`), used to state the
non-negativity hypothesis of claim C5. -/
def PheromoneOp.amountOf : PheromoneOp → ℚ
  | .depositOp _ _ a _ => a
  | .updateOp => 0

/-- Run a finite sequence of deposit/update calls against the field. -/
def PheromoneModel.runOps (m : PheromoneModel) : List PheromoneOp → PheromoneModel
  | [] => m
  | .depositOp x y a pt :: ops => (m.deposit x y a pt).runOps ops
  | .updateOp :: ops => m.update.runOps ops

/-- Every cell of a layer (in or out of the grid function's support) lies
in `[0, max]`. -/
def PheromoneLayer.inRange (l : PheromoneLayer) (maxv : ℚ) : Prop :=
  ∀ gx gy : ℤ, 0 ≤ l.grid gx gy ∧ l.grid gx gy ≤ maxv

theorem PheromoneLayer.init_inRange (w h : ℕ) (maxv : ℚ) (hm : 0 ≤ maxv) :
    (PheromoneLayer.init w h).inRange maxv := by
  intro gx gy
  exact ⟨le_refl 0, hm⟩

theorem PheromoneLayer.deposit_inRange (l : PheromoneLayer) (maxv : ℚ)
    (hm : 0 ≤ maxv) (h : l.inRange maxv) (gx gy : ℤ) (amount : ℚ)
    (ha : 0 ≤ amount) : (l.deposit gx gy amount maxv).inRange maxv := by
  unfold PheromoneLayer.deposit
  split
  · intro x y
    simp only
    split
    · exact ⟨le_min hm (add_nonneg (h gx gy).1 ha), min_le_left _ _⟩
    · exact h x y
  · exact h

theorem PheromoneLayer.evaporate_inRange (l : PheromoneLayer) (maxv rate : ℚ)
    (h : l.inRange maxv) (hr0 : 0 ≤ rate) (hr1 : rate ≤ 1) :
    (l.evaporate rate).inRange maxv := by
  intro x y
  unfold PheromoneLayer.evaporate
  simp only
  split
  · constructor
    · exact mul_nonneg (h x y).1 hr0
    · calc l.grid x y * rate ≤ l.grid x y * 1 :=
          mul_le_mul_of_nonneg_left hr1 (h x y).1
        _ = l.grid x y := mul_one _
        _ ≤ maxv := (h x y).2
  · exact h x y

/-- Both layers of the field are within `[0, 200]`. -/
def PheromoneModel.inRange (m : PheromoneModel) : Prop :=
  m.food_trail.inRange PheromoneModel.max_pheromone ∧
    m.home_trail.inRange PheromoneModel.max_pheromone

theorem PheromoneModel.model_deposit_inRange (m : PheromoneModel)
    (h : m.inRange) (x y amount : ℚ) (ha : 0 ≤ amount) (pt : PheromoneKind) :
    (m.deposit x y amount pt).inRange := by
  have hm : (0 : ℚ) ≤ PheromoneModel.max_pheromone := by
    norm_num [PheromoneModel.max_pheromone]
  cases pt with
  | food_trail =>
    exact ⟨PheromoneLayer.deposit_inRange _ _ hm h.1 _ _ _ ha, h.2⟩
  | home_trail =>
    exact ⟨h.1, PheromoneLayer.deposit_inRange _ _ hm h.2 _ _ _ ha⟩

theorem PheromoneModel.update_inRange (m : PheromoneModel) (h : m.inRange) :
    m.update.inRange := by
  have h0 : (0 : ℚ) ≤ PheromoneModel.evaporation_rate := by
    norm_num [PheromoneModel.evaporation_rate]
  have h1 : PheromoneModel.evaporation_rate ≤ 1 := by
    norm_num [PheromoneModel.evaporation_rate]
  exact ⟨PheromoneLayer.evaporate_inRange _ _ _ h.1 h0 h1,
         PheromoneLayer.evaporate_inRange _ _ _ h.2 h0 h1⟩

theorem PheromoneModel.runOps_inRange (ops : List PheromoneOp)
    (m : PheromoneModel) (h : m.inRange)
    (hops : ∀ op ∈ ops, 0 ≤ op.amountOf) : (m.runOps ops).inRange := by
  induction ops generalizing m with
  | nil => exact h
  | cons op rest ih =>
    cases op with
    | depositOp x y a pt =>
      exact ih _ (PheromoneModel.model_deposit_inRange m h x y a
        (hops _ (List.mem_cons_self _ _)) pt)
        (fun o ho => hops o (List.mem_cons_of_mem _ ho))
    | updateOp =>
      exact ih _ (PheromoneModel.update_inRange m h)
        (fun o ho => hops o (List.mem_cons_of_mem _ ho))

/-- C5: for every grid cell of every pheromone layer, after any finite
sequence of deposit calls with non-negative amounts and update
(evaporation) calls, in any interleaving, the stored strength lies in
`[0, max_strength]` with `max_strength = 200.0`. -/
theorem c5_pheromone_strength_in_range (w h : ℕ) (ops : List PheromoneOp)
    (hops : ∀ op ∈ ops, 0 ≤ op.amountOf) :
    ∀ gx gy : ℤ,
      (0 ≤ (((PheromoneModel.init w h).runOps ops).food_trail.get gx gy) ∧
        (((PheromoneModel.init w h).runOps ops).food_trail.get gx gy) ≤ 200) ∧
      (0 ≤ (((PheromoneModel.init w h).runOps ops).home_trail.get gx gy) ∧
        (((PheromoneModel.init w h).runOps ops).home_trail.get gx gy) ≤ 200) := by
  have h0 : (PheromoneModel.init w h).inRange :=
    ⟨PheromoneLayer.init_inRange _ _ _ (by norm_num [PheromoneModel.max_pheromone]),
     PheromoneLayer.init_inRange _ _ _ (by norm_num [PheromoneModel.max_pheromone])⟩
  have hrun := PheromoneModel.runOps_inRange ops _ h0 hops
  intro gx gy
  have hmax : PheromoneModel.max_pheromone = (200 : ℚ) := rfl
  constructor
  · unfold PheromoneLayer.get
    split
    · exact ⟨(hrun.1 gx gy).1, hmax ▸ (hrun.1 gx gy).2⟩
    · norm_num
  · unfold PheromoneLayer.get
    split
    · exact ⟨(hrun.2 gx gy).1, hmax ▸ (hrun.2 gx gy).2⟩
    · norm_num

/-- Witness for C5: a concrete run (one food deposit of 12.0 at world
position (30, 30), then one evaporation pass) keeps the inspected cell in
range. -/
theorem c5_pheromone_strength_in_range_witness :
    (∀ op ∈ [PheromoneOp.depositOp 30 30 12 .food_trail, PheromoneOp.updateOp],
        0 ≤ op.amountOf) ∧
    (0 ≤ (((PheromoneModel.init 400 400).runOps
        [PheromoneOp.depositOp 30 30 12 .food_trail,
         PheromoneOp.updateOp]).food_trail.get 1 1) ∧
      (((PheromoneModel.init 400 400).runOps
        [PheromoneOp.depositOp 30 30 12 .food_trail,
         PheromoneOp.updateOp]).food_trail.get 1 1) ≤ 200) := by
  refine ⟨by decide, ?_⟩
  exact (c5_pheromone_strength_in_range 400 400 _ (by decide) 1 1).1

/-! ### Evolution engine (src/src/colony_brain.py, src/src/neural_net.py)

`AntBrain.__init__(network)` sets `fitness = 0.0`, and `AntBrain.copy()`
returns `AntBrain(self.network.copy())`, so a copy's fitness is reset to
zero.  Weight vectors are embedded as `List ℚ`. -/

structure AntBrain where
  network : List ℚ
  fitness : ℚ
deriving DecidableEq

/-- `AntBrain.copy`: copies the network; the constructor re-initializes
`fitness` to `0.0`. -/
def AntBrain.copy (b : AntBrain) : AntBrain :=
  { network := b.network, fitness := 0 }

/-- The mutable fields of `ColonyBrain` touched by
`report_ant_performance` and `_calculate_diversity`. -/
structure ColonyBrainState where
  elite_brains : List AntBrain
  total_food_collected : ℕ
  total_trips_completed : ℕ
  best_fitness : ℚ
  diversity_score : ℚ
deriving DecidableEq

namespace ColonyBrain

/-- `self.max_elites = 10`. -/
def max_elites : ℕ := 10

/-- `ColonyBrain.__init__`: empty elite list, zero statistics. -/
def init : ColonyBrainState :=
  { elite_brains := [], total_food_collected := 0, total_trips_completed := 0,
    best_fitness := 0, diversity_score := 0 }

/-- The fitness computed by `report_ant_performance`:
`(food_collected*100 + trips*50) / (time_alive/60.0)` when
`time_alive > 0`, else `0`. -/
def efficiencyOf (food_collected trips time_alive : ℕ) : ℚ :=
  if 0 < time_alive then
    ((food_collected : ℚ) * 100 + (trips : ℚ) * 50) / ((time_alive : ℚ) / 60)
  else 0

/-- Insert into a descending-by-fitness list, after any equal elements
(matching Python's stable `list.sort(key=..., reverse=True)`). -/
def insertByFitness (b : AntBrain) : List AntBrain → List AntBrain
  | [] => [b]
  | c :: cs =>
    if c.fitness < b.fitness then b :: c :: cs else c :: insertByFitness b cs

/-- `elite_brains.sort(key=lambda b: b.fitness, reverse=True)`. -/
def sortByFitnessDesc : List AntBrain → List AntBrain
  | [] => []
  | b :: bs => insertByFitness b (sortByFitnessDesc bs)

/-- `self.elite_brains[-1]` (only ever read when the list is full). -/
def lastElite (l : List AntBrain) : AntBrain :=
  l.getLastD { network := [], fitness := 0 }

/-- `ColonyBrain.report_ant_performance(brain, food_collected, trips,
time_alive)`: computes the fitness, stores it on the reported brain,
updates the totals, inserts a copy into the elite list (or replaces the
worst elite when full and strictly beaten), and raises `best_fitness`.
Returns the new engine state together with the mutated `brain` argument. -/
def newElites (elites : List AntBrain) (brainCopy : AntBrain)
    (efficiency : ℚ) : List AntBrain :=
  if elites.length < max_elites then
    sortByFitnessDesc (elites ++ [brainCopy])
  else if (lastElite elites).fitness < efficiency then
    sortByFitnessDesc (elites.dropLast ++ [brainCopy])
  else elites

def report_ant_performance (st : ColonyBrainState) (brain : AntBrain)
    (food_collected trips time_alive : ℕ) : ColonyBrainState × AntBrain :=
  let efficiency := efficiencyOf food_collected trips time_alive
  let brain := { brain with fitness := efficiency }
  ({ st with
      total_food_collected := st.total_food_collected + food_collected,
      total_trips_completed := st.total_trips_completed + trips,
      elite_brains := newElites st.elite_brains brain.copy efficiency,
      best_fitness :=
        if st.best_fitness < efficiency then efficiency else st.best_fitness },
   brain)

/-- A performance report: the reported brain and its
`(food_collected, trips, time_alive)` statistics. -/
def applyReport (st : ColonyBrainState) (r : AntBrain × ℕ × ℕ × ℕ) :
    ColonyBrainState :=
  (report_ant_performance st r.1 r.2.1 r.2.2.1 r.2.2.2).1

/-- Run a sequence of reports against the freshly initialized engine. -/
def runReports (reports : List (AntBrain × ℕ × ℕ × ℕ)) : ColonyBrainState :=
  reports.foldl applyReport init

/-- Descending-by-fitness order on brains. -/
def fitnessGE (a b : AntBrain) : Prop := b.fitness ≤ a.fitness

theorem mem_insertByFitness (x b : AntBrain) (l : List AntBrain)
    (hx : x ∈ insertByFitness b l) : x = b ∨ x ∈ l := by
  induction l with
  | nil => simpa [insertByFitness] using hx
  | cons d ds ih =>
    unfold insertByFitness at hx
    by_cases hdb : d.fitness < b.fitness
    · rw [if_pos hdb] at hx
      rcases List.mem_cons.mp hx with h1 | h1
      · exact Or.inl h1
      · exact Or.inr h1
    · rw [if_neg hdb] at hx
      rcases List.mem_cons.mp hx with h1 | h1
      · exact Or.inr (by simp [h1])
      · rcases ih h1 with h2 | h2
        · exact Or.inl h2
        · exact Or.inr (List.mem_cons_of_mem _ h2)

theorem insertByFitness_sorted (b : AntBrain) (l : List AntBrain)
    (h : l.Sorted fitnessGE) : (insertByFitness b l).Sorted fitnessGE := by
  induction l with
  | nil => simp [insertByFitness, List.Sorted]
  | cons c cs ih =>
    rw [List.sorted_cons] at h
    unfold insertByFitness
    split
    · rename_i hcb
      rw [List.sorted_cons]
      refine ⟨?_, List.sorted_cons.mpr h⟩
      intro x hx
      rcases List.mem_cons.mp hx with rfl | hx
      · exact le_of_lt hcb
      · exact le_trans (h.1 x hx) (le_of_lt hcb)
    · rename_i hcb
      rw [List.sorted_cons]
      refine ⟨?_, ih h.2⟩
      intro x hx
      rcases mem_insertByFitness x b cs hx with rfl | hxc
      · exact not_lt.mp hcb
      · exact h.1 x hxc

theorem sortByFitnessDesc_sorted (l : List AntBrain) :
    (sortByFitnessDesc l).Sorted fitnessGE := by
  induction l with
  | nil => simp [sortByFitnessDesc, List.Sorted]
  | cons b bs ih => exact insertByFitness_sorted b _ ih

theorem insertByFitness_length (b : AntBrain) (l : List AntBrain) :
    (insertByFitness b l).length = l.length + 1 := by
  induction l with
  | nil => rfl
  | cons c cs ih =>
    unfold insertByFitness
    split
    · simp
    · simp [ih]

theorem sortByFitnessDesc_length (l : List AntBrain) :
    (sortByFitnessDesc l).length = l.length := by
  induction l with
  | nil => rfl
  | cons b bs ih => simp [sortByFitnessDesc, insertByFitness_length, ih]

/-- The elite-list invariant: sorted descending by fitness and bounded by
the capacity. -/
def eliteInvariant (st : ColonyBrainState) : Prop :=
  st.elite_brains.Sorted fitnessGE ∧ st.elite_brains.length ≤ max_elites

theorem newElites_invariant (elites : List AntBrain) (bc : AntBrain) (e : ℚ)
    (hs : elites.Sorted fitnessGE) (hl : elites.length ≤ max_elites) :
    (newElites elites bc e).Sorted fitnessGE ∧
      (newElites elites bc e).length ≤ max_elites := by
  have hM : max_elites = 10 := rfl
  unfold newElites
  by_cases h1 : elites.length < max_elites
  · rw [if_pos h1]
    refine ⟨sortByFitnessDesc_sorted _, ?_⟩
    simp only [sortByFitnessDesc_length, List.length_append,
      List.length_cons, List.length_nil]
    omega
  · rw [if_neg h1]
    by_cases h2 : (lastElite elites).fitness < e
    · rw [if_pos h2]
      refine ⟨sortByFitnessDesc_sorted _, ?_⟩
      simp only [sortByFitnessDesc_length, List.length_append,
        List.length_dropLast, List.length_cons, List.length_nil]
      omega
    · rw [if_neg h2]
      exact ⟨hs, hl⟩

theorem applyReport_eliteInvariant (st : ColonyBrainState)
    (r : AntBrain × ℕ × ℕ × ℕ) (h : eliteInvariant st) :
    eliteInvariant (applyReport st r) := by
  unfold applyReport report_ant_performance eliteInvariant
  exact newElites_invariant _ _ _ h.1 h.2

theorem runReports_eliteInvariant (reports : List (AntBrain × ℕ × ℕ × ℕ)) :
    eliteInvariant (runReports reports) := by
  unfold runReports
  have h0 : eliteInvariant init := by
    constructor
    · simp [init, List.Sorted]
    · simp [init, max_elites]
  generalize init = st0 at h0 ⊢
  induction reports generalizing st0 with
  | nil => exact h0
  | cons r rs ih => exact ih _ (applyReport_eliteInvariant _ _ h0)

end ColonyBrain

/-- C6: after any finite sequence of performance reports starting from the
freshly initialized engine (empty elite list), the elite list is sorted in
descending fitness order and its length never exceeds the capacity (10) —
unconditionally, for every sequence; moreover, whenever the list is full,
a further incoming report leaves the elite list unchanged unless the new
fitness strictly exceeds the worst (last) stored fitness — i.e.
displacement happens only on a strict improvement over the lowest-fitness
elite. -/
theorem c6_elite_list_sorted_bounded (reports : List (AntBrain × ℕ × ℕ × ℕ))
    (b : AntBrain) (f t a : ℕ) :
    (ColonyBrain.runReports reports).elite_brains.Sorted ColonyBrain.fitnessGE ∧
    (ColonyBrain.runReports reports).elite_brains.length ≤
      ColonyBrain.max_elites ∧
    ((ColonyBrain.runReports reports).elite_brains.length =
        ColonyBrain.max_elites →
      ¬ (ColonyBrain.lastElite
          (ColonyBrain.runReports reports).elite_brains).fitness <
        ColonyBrain.efficiencyOf f t a →
      (ColonyBrain.report_ant_performance (ColonyBrain.runReports reports)
          b f t a).1.elite_brains =
        (ColonyBrain.runReports reports).elite_brains) := by
  obtain ⟨hs, hl⟩ := ColonyBrain.runReports_eliteInvariant reports
  refine ⟨hs, hl, ?_⟩
  intro hfull hnotbeat
  show ColonyBrain.newElites _ _ _ = _
  unfold ColonyBrain.newElites
  rw [if_neg (by omega), if_neg hnotbeat]

/-- Witness for C6: ten zero-fitness reports fill the elite list; the list
is sorted and at capacity, and an eleventh zero-fitness report does not
displace anything. -/
theorem c6_elite_list_sorted_bounded_witness :
    (ColonyBrain.runReports (List.replicate 10 (⟨[], 0⟩, 0, 0, 60))).elite_brains.Sorted
        ColonyBrain.fitnessGE ∧
      (ColonyBrain.runReports (List.replicate 10 (⟨[], 0⟩, 0, 0, 60))).elite_brains.length ≤
        ColonyBrain.max_elites ∧
      (ColonyBrain.report_ant_performance (ColonyBrain.runReports
          (List.replicate 10 (⟨[], 0⟩, 0, 0, 60))) ⟨[], 0⟩ 0 0 60).1.elite_brains =
        (ColonyBrain.runReports (List.replicate 10 (⟨[], 0⟩, 0, 0, 60))).elite_brains := by
  have hrun : (ColonyBrain.runReports (List.replicate 10 (⟨[], 0⟩, 0, 0, 60))).elite_brains =
      List.replicate 10 ⟨[], 0⟩ := by
    norm_num [ColonyBrain.runReports, ColonyBrain.applyReport,
      ColonyBrain.report_ant_performance, ColonyBrain.newElites,
      ColonyBrain.efficiencyOf, ColonyBrain.sortByFitnessDesc,
      ColonyBrain.insertByFitness, ColonyBrain.lastElite, ColonyBrain.init,
      ColonyBrain.max_elites, AntBrain.copy, List.replicate]
  have hlen : (ColonyBrain.runReports (List.replicate 10 (⟨[], 0⟩, 0, 0, 60))).elite_brains.length =
      ColonyBrain.max_elites := by
    rw [hrun]; rfl
  have hbeat : ¬ (ColonyBrain.lastElite
      (ColonyBrain.runReports (List.replicate 10 (⟨[], 0⟩, 0, 0, 60))).elite_brains).fitness <
      ColonyBrain.efficiencyOf 0 0 60 := by
    rw [hrun]
    norm_num [ColonyBrain.lastElite, ColonyBrain.efficiencyOf, List.replicate]
  obtain ⟨h1, h2, h3⟩ := c6_elite_list_sorted_bounded
    (List.replicate 10 (⟨[], 0⟩, 0, 0, 60)) ⟨[], 0⟩ 0 0 60
  exact ⟨h1, h2, h3 hlen hbeat⟩

/-- The fitness formula exactly as the specification states it for C3,
with the `max(1, ·)` clamp on the divisor. -/
def specFitnessFormula (f t a : ℕ) : ℚ :=
  ((f : ℚ) * 100 + (t : ℚ) * 50) / max 1 ((a : ℚ) / 60)

/-- Counterexample to C3: for a report with `foodCollected = 1`,
`trips = 0`, `ticksAlive = 30`, the code assigns fitness
`100 / (30/60) = 200`, while the specified formula with the clamped
divisor gives `100 / max(1, 0.5) = 100`.  The code has no `max(1, ·)`
clamp: the divisor is `0.5 < 1`. -/
theorem c3_counterexample :
    (ColonyBrain.report_ant_performance ColonyBrain.init ⟨[], 0⟩ 1 0 30).2.fitness
        = 200 ∧
      specFitnessFormula 1 0 30 = 100 ∧
      (200 : ℚ) ≠ 100 ∧ ((30 : ℚ) / 60) < 1 := by
  refine ⟨?_, ?_, by norm_num, by norm_num⟩
  · simp [ColonyBrain.report_ant_performance, ColonyBrain.efficiencyOf]
    norm_num
  · simp [specFitnessFormula]
    norm_num [max_eq_left]

/-- C3 (amended): the fitness assigned to the reported controller equals
`(foodCollected×100 + trips×50) / (ticksAlive/60)` when `ticksAlive > 0`
and `0` when `ticksAlive = 0`; there is no clamp on the divisor, so for
`0 < ticksAlive < 60` the divisor is below 1 and the quotient exceeds the
numerator. -/
theorem c3_fitness_formula (st : ColonyBrainState) (brain : AntBrain)
    (f t a : ℕ) :
    (ColonyBrain.report_ant_performance st brain f t a).2.fitness =
      if 0 < a then ((f : ℚ) * 100 + (t : ℚ) * 50) * 60 / (a : ℚ) else 0 := by
  unfold ColonyBrain.report_ant_performance ColonyBrain.efficiencyOf
  simp only
  split
  · rename_i ha
    rw [div_div_eq_mul_div]
  · rfl

/-! ### Diversity metric (`ColonyBrain._calculate_diversity`) -/

namespace ColonyBrain

/-- The ordered pairs `(brains[i], brains[j])` with `i < j`, in the order
the nested loops `for i, brain1 in enumerate(...)` /
`for brain2 in self.elite_brains[i+1:]` visit them. -/
def pairsAfter : List AntBrain → List (AntBrain × AntBrain)
  | [] => []
  | x :: xs => (xs.map fun y => (x, y)) ++ pairsAfter xs

/-- `sum(abs(w1 - w2) for w1, w2 in zip(...))`. -/
def l1Dist (v w : List ℚ) : ℚ :=
  (List.zipWith (fun a b => |a - b|) v w).sum

/-- `ColonyBrain._calculate_diversity`: returns the new
`diversity_score` given the previous one (`old`) and the elite list.  With
fewer than two elites the score is set to `1.0`; otherwise the summed
pairwise L1 differences (each normalized by the first brain's
weight-vector length) are averaged over the number of pairs and clamped
at `1.0`; with no pairs the previous score is kept. -/
def calculate_diversity (old : ℚ) (brains : List AntBrain) : ℚ :=
  if brains.length < 2 then 1
  else
    let ps := pairsAfter brains
    let total_diff :=
      (ps.map fun p => l1Dist p.1.network p.2.network /
        ((p.1.network.length : ℚ))).sum
    if 0 < ps.length then min 1 (total_diff / (ps.length : ℚ)) else old

theorem l1Dist_nonneg (v w : List ℚ) : 0 ≤ l1Dist v w := by
  unfold l1Dist
  induction v generalizing w with
  | nil => simp
  | cons a as ih =>
    cases w with
    | nil => simp
    | cons b bs =>
      simp only [List.zipWith, List.sum_cons]
      have := ih bs
      positivity

theorem pairsAfter_length_pos (brains : List AntBrain)
    (h : 2 ≤ brains.length) : 0 < (pairsAfter brains).length := by
  match brains, h with
  | x :: y :: rest, _ =>
    simp [pairsAfter]

theorem mem_pairsAfter_left (p : AntBrain × AntBrain)
    (brains : List AntBrain) (hp : p ∈ pairsAfter brains) : p.1 ∈ brains := by
  induction brains with
  | nil => simp [pairsAfter] at hp
  | cons x xs ih =>
    unfold pairsAfter at hp
    rcases List.mem_append.mp hp with h1 | h1
    · rcases List.mem_map.mp h1 with ⟨y, _, rfl⟩
      exact List.mem_cons_self _ _
    · exact List.mem_cons_of_mem _ (ih h1)

theorem sum_map_div (l : List (AntBrain × AntBrain))
    (g : AntBrain × AntBrain → ℚ) (c : ℚ) :
    (l.map fun p => g p / c).sum = (l.map g).sum / c := by
  induction l with
  | nil => simp
  | cons p ps ih => simp [ih, add_div]

end ColonyBrain

/-- C10: the diversity score computed by `_calculate_diversity` always
lies in `[0, 1]`; with fewer than two elites it is exactly `1.0`, and
otherwise it equals the mean pairwise L1 weight distance normalized by
the (common) weight-vector length, clamped above at `1.0`. -/
theorem c10_diversity_score_range (old : ℚ) (brains : List AntBrain) (L : ℕ)
    (hL : 0 < L) (hlen : ∀ b ∈ brains, b.network.length = L) :
    (0 ≤ ColonyBrain.calculate_diversity old brains ∧
      ColonyBrain.calculate_diversity old brains ≤ 1) ∧
    (brains.length < 2 → ColonyBrain.calculate_diversity old brains = 1) ∧
    (2 ≤ brains.length →
      ColonyBrain.calculate_diversity old brains =
        min 1 (((ColonyBrain.pairsAfter brains).map fun p =>
            ColonyBrain.l1Dist p.1.network p.2.network).sum /
          ((L : ℚ) * ((ColonyBrain.pairsAfter brains).length : ℚ)))) := by
  have hmean : ∀ hge : 2 ≤ brains.length,
      ColonyBrain.calculate_diversity old brains =
        min 1 (((ColonyBrain.pairsAfter brains).map fun p =>
            ColonyBrain.l1Dist p.1.network p.2.network).sum /
          ((L : ℚ) * ((ColonyBrain.pairsAfter brains).length : ℚ))) := by
    intro hge
    unfold ColonyBrain.calculate_diversity
    rw [if_neg (by omega), if_pos (ColonyBrain.pairsAfter_length_pos _ hge)]
    have hmap : ((ColonyBrain.pairsAfter brains).map fun p =>
        ColonyBrain.l1Dist p.1.network p.2.network /
          ((p.1.network.length : ℚ))).sum =
        ((ColonyBrain.pairsAfter brains).map fun p =>
          ColonyBrain.l1Dist p.1.network p.2.network / ((L : ℚ))).sum := by
      refine congrArg List.sum (List.map_congr_left ?_)
      intro p hp
      rw [hlen p.1 (ColonyBrain.mem_pairsAfter_left p brains hp)]
    rw [hmap, ColonyBrain.sum_map_div, div_div]
  refine ⟨?_, ?_, hmean⟩
  · by_cases h2 : brains.length < 2
    · unfold ColonyBrain.calculate_diversity
      rw [if_pos h2]
      norm_num
    · rw [hmean (by omega)]
      have hsum : 0 ≤ ((ColonyBrain.pairsAfter brains).map fun p =>
          ColonyBrain.l1Dist p.1.network p.2.network).sum := by
        apply List.sum_nonneg
        intro x hx
        rcases List.mem_map.mp hx with ⟨p, _, rfl⟩
        exact ColonyBrain.l1Dist_nonneg _ _
      constructor
      · exact le_min (by norm_num) (by positivity)
      · exact min_le_left _ _
  · intro h2
    unfold ColonyBrain.calculate_diversity
    rw [if_pos h2]

/-- Witness for C10: two single-weight elites with weights `0` and `1`
give diversity `min 1 ((|0-1|/1)/1) = 1`, inside `[0, 1]`. -/
theorem c10_diversity_score_range_witness :
    (0 < 1 ∧ (∀ b ∈ [AntBrain.mk [0] 0, AntBrain.mk [1] 0],
        b.network.length = 1)) ∧
    (0 ≤ ColonyBrain.calculate_diversity 0 [AntBrain.mk [0] 0, AntBrain.mk [1] 0] ∧
      ColonyBrain.calculate_diversity 0 [AntBrain.mk [0] 0, AntBrain.mk [1] 0] ≤ 1) := by
  have hmem : ∀ b ∈ [AntBrain.mk [0] 0, AntBrain.mk [1] 0],
      b.network.length = 1 := by
    intro b hb
    rcases List.mem_cons.mp hb with rfl | hb
    · rfl
    · rcases List.mem_cons.mp hb with rfl | hb
      · rfl
      · simp at hb
  have h := c10_diversity_score_range 0 [AntBrain.mk [0] 0, AntBrain.mk [1] 0] 1
    (by norm_num) hmem
  exact ⟨⟨by norm_num, hmem⟩, h.1⟩

/-! ### The pheromone interface actually exposed by `PheromoneModel`
(src/src/pheromone_model.py) versus the danger-layer calls made by
`Ant._move` (src/src/ant.py line 455) and `Colony.update`
(src/src/colony.py line 196).

Python resolves `obj.method(...)` by attribute lookup; a name that is not
defined on the class raises `AttributeError`.  We embed the lookup over
the exact list of method names defined in `class PheromoneModel`. -/

/-- A Python runtime error relevant to the embedded fragment. -/
inductive PyError where
  | attributeError (attr : String)
deriving DecidableEq, BEq

/-- The methods defined by `class PheromoneModel` in
src/src/pheromone_model.py, in source order. -/
def pheromoneModelMethods : List String :=
  ["__init__", "_to_grid", "_get_layer", "deposit", "deposit_food_trail",
   "deposit_home_trail", "get_strength", "get_trail_direction",
   "get_food_trail_direction", "get_home_trail_direction", "update",
   "clear", "draw", "to_dict", "from_dict"]

/-- Python attribute lookup on an object whose class defines exactly
`methods`: returns the method or raises `AttributeError`. -/
def lookupMethod (methods : List String) (name : String) :
    Except PyError String :=
  if name ∈ methods then .ok name else .error (.attributeError name)

/-- The attribute `Ant._move` reads on `pheromone_map` for danger
avoidance (ant.py line 455). -/
def antMoveDangerAttr : String := "get_danger_avoidance"

/-- The attribute `Colony.update` reads on `self.pheromone_map` at an
agent death (colony.py line 196). -/
def colonyDeathDangerAttr : String := "deposit_danger"

/-- C2 (code bug): the pheromone field has no danger layer — neither
`get_danger_avoidance` (read by every `Ant._move`) nor `deposit_danger`
(called at every agent death) is defined on `PheromoneModel`, so both
operations raise `AttributeError` instead of completing without error. -/
theorem c2_danger_operations_undefined :
    lookupMethod pheromoneModelMethods antMoveDangerAttr =
        .error (.attributeError "get_danger_avoidance") ∧
      lookupMethod pheromoneModelMethods colonyDeathDangerAttr =
        .error (.attributeError "deposit_danger") := by
  constructor <;> rfl

/-! ### Death handling in `Colony.update` (src/src/colony.py lines 184-205)

For each dead ant (in reverse index order) the orchestrator pops the ant,
appends a death marker, and calls `self.pheromone_map.deposit_danger` —
which raises.  No call to `ColonyBrain.report_ant_performance` appears
anywhere in the loop (nor anywhere else in the repository). -/

/-- Observable effects of the dead-ant loop in `Colony.update`. -/
inductive ColonyEffect where
  | popAnt (idx : ℕ)
  | appendDeathMarker (x y : ℚ)
  | pheromoneMethodCall (method : String)
  | reportAntPerformanceCall
deriving DecidableEq, BEq

/-- One iteration of the dead-ant loop: `self.ants.pop(i)`;
`self.death_markers.append(...)`; `self.pheromone_map.deposit_danger(x, y, 150)`
(the last one resolved by attribute lookup). -/
def processDeadAnt (i : ℕ) (x y : ℚ) : List ColonyEffect × Option PyError :=
  match lookupMethod pheromoneModelMethods "deposit_danger" with
  | .ok m => ([.popAnt i, .appendDeathMarker x y, .pheromoneMethodCall m], none)
  | .error e => ([.popAnt i, .appendDeathMarker x y], some e)

/-- The dead-ant loop over `reversed(dead_ants)`; a raised error aborts
the remaining iterations (and propagates out of `Colony.update`). -/
def processDeadAnts : List (ℕ × ℚ × ℚ) → List ColonyEffect × Option PyError
  | [] => ([], none)
  | (i, x, y) :: rest =>
    match processDeadAnt i x y with
    | (fx, some err) => (fx, some err)
    | (fx, none) =>
      let r := processDeadAnts rest
      (fx ++ r.1, r.2)

/-- C1 (code bug): processing agent deaths emits zero
`report_ant_performance` calls — not exactly one per death.  The first
dead agent is popped from the active set and then the loop aborts with
`AttributeError` on `deposit_danger`; in no case is a fitness report
delivered to the evolution engine. -/
theorem c1_death_emits_no_fitness_report :
    (∀ dead : List (ℕ × ℚ × ℚ),
      ((processDeadAnts dead).1.count ColonyEffect.reportAntPerformanceCall)
        = 0) ∧
    (∀ (i : ℕ) (x y : ℚ) (rest : List (ℕ × ℚ × ℚ)),
      processDeadAnts ((i, x, y) :: rest) =
        ([.popAnt i, .appendDeathMarker x y],
          some (.attributeError "deposit_danger"))) := by
  have hstep : ∀ (i : ℕ) (x y : ℚ), processDeadAnt i x y =
      ([.popAnt i, .appendDeathMarker x y],
        some (.attributeError "deposit_danger")) := by
    intro i x y
    rfl
  constructor
  · intro dead
    cases dead with
    | nil => rfl
    | cons hd tl =>
      obtain ⟨i, x, y⟩ := hd
      simp only [processDeadAnts, hstep, List.count_cons, List.count_nil]
      exact rfl
  · intro i x y rest
    simp [processDeadAnts, hstep]

/-! ### Neural controller (src/src/neural_net.py)

The flat weight list is embedded as a function `ℕ → ℝ` (index into
`self.weights`); `_unpack_weights` becomes index arithmetic.  The Python
activations clamp their argument to `[-500, 500]` before `exp`/`tanh`. -/

namespace NeuralNet

def NUM_VISION_RAYS : ℕ := 7

def VISION_INPUTS : ℕ := NUM_VISION_RAYS * 3

def INPUT_SIZE : ℕ := VISION_INPUTS + 6

def HIDDEN_SIZE : ℕ := 16

def OUTPUT_SIZE : ℕ := 3

/-- `sigmoid(x) = 1 / (1 + exp(-max(-500, min(500, x))))` (the
`OverflowError` branch is unreachable thanks to the clamp). -/
noncomputable def sigmoid (x : ℝ) : ℝ :=
  1 / (1 + Real.exp (-(max (-500) (min 500 x))))

/-- `tanh(x) = math.tanh(max(-500, min(500, x)))`. -/
noncomputable def tanh (x : ℝ) : ℝ :=
  Real.tanh (max (-500) (min 500 x))

/-- `self.w_ih[i][j]` after `_unpack_weights`. -/
def w_ih (weights : ℕ → ℝ) (i j : ℕ) : ℝ :=
  weights (i * HIDDEN_SIZE + j)

/-- `self.w_ho[j][k]` after `_unpack_weights`. -/
def w_ho (weights : ℕ → ℝ) (j k : ℕ) : ℝ :=
  weights (INPUT_SIZE * HIDDEN_SIZE + j * OUTPUT_SIZE + k)

/-- `self.b_h[j]` after `_unpack_weights`. -/
def b_h (weights : ℕ → ℝ) (j : ℕ) : ℝ :=
  weights (INPUT_SIZE * HIDDEN_SIZE + HIDDEN_SIZE * OUTPUT_SIZE + j)

/-- `self.b_o[k]` after `_unpack_weights`. -/
def b_o (weights : ℕ → ℝ) (k : ℕ) : ℝ :=
  weights (INPUT_SIZE * HIDDEN_SIZE + HIDDEN_SIZE * OUTPUT_SIZE + HIDDEN_SIZE + k)

/-- `NeuralNetwork.forward`: hidden layer of 16 tanh units, then the
3-unit output layer with per-channel activations
`[tanh, sigmoid + 0.5, sigmoid]`. -/
noncomputable def forward (weights inputs : ℕ → ℝ) : ℝ × ℝ × ℝ :=
  let hidden : ℕ → ℝ := fun j =>
    tanh (b_h weights j +
      ∑ i ∈ Finset.range INPUT_SIZE, inputs i * w_ih weights i j)
  let outputs : ℕ → ℝ := fun k =>
    b_o weights k +
      ∑ j ∈ Finset.range HIDDEN_SIZE, hidden j * w_ho weights j k
  (tanh (outputs 0), sigmoid (outputs 1) + 0.5, sigmoid (outputs 2))

/-- The 27-entry input vector assembled by `AntBrain.decide`: the 21
vision readings followed by the six normalized state features (with the
default reference maxima `max_pheromone = 200.0`, `max_distance =
1000.0`). -/
noncomputable def decideInputs (vision : ℕ → ℝ)
    (food_pheromone_ahead home_pheromone_ahead colony_distance
      colony_direction : ℝ) (carrying_food : Bool) (energy : ℝ) : ℕ → ℝ :=
  fun i =>
    if i < VISION_INPUTS then vision i
    else if i = 21 then min 1 (food_pheromone_ahead / 200)
    else if i = 22 then min 1 (home_pheromone_ahead / 200)
    else if i = 23 then min 1 (colony_distance / 1000)
    else if i = 24 then colony_direction / Real.pi
    else if i = 25 then (if carrying_food then 1 else 0)
    else if i = 26 then min 1 (energy / 100)
    else 0

/-- `AntBrain.decide`: run `forward` on the assembled inputs and map the
outputs to `(turn_angle, speed_modifier, exploration)`, with
`turn_angle = outputs[0] * (math.pi / 2)`. -/
noncomputable def decide (weights vision : ℕ → ℝ)
    (food_pheromone_ahead home_pheromone_ahead colony_distance
      colony_direction : ℝ) (carrying_food : Bool) (energy : ℝ) :
    ℝ × ℝ × ℝ :=
  let outputs := forward weights
    (decideInputs vision food_pheromone_ahead home_pheromone_ahead
      colony_distance colony_direction carrying_food energy)
  (outputs.1 * (Real.pi / 2), outputs.2.1, outputs.2.2)

theorem real_tanh_le_one (x : ℝ) : Real.tanh x ≤ 1 := by
  rw [Real.tanh_eq_sinh_div_cosh]
  exact div_le_one_of_le₀ (Real.sinh_lt_cosh x).le (Real.cosh_pos x).le

theorem neg_one_le_real_tanh (x : ℝ) : -1 ≤ Real.tanh x := by
  rw [Real.tanh_eq_sinh_div_cosh, le_div_iff₀ (Real.cosh_pos x)]
  have h := Real.sinh_lt_cosh (-x)
  rw [Real.sinh_neg, Real.cosh_neg] at h
  linarith

theorem tanh_mem (x : ℝ) : -1 ≤ tanh x ∧ tanh x ≤ 1 :=
  ⟨neg_one_le_real_tanh _, real_tanh_le_one _⟩

theorem sigmoid_mem (x : ℝ) : 0 ≤ sigmoid x ∧ sigmoid x ≤ 1 := by
  unfold sigmoid
  have he : 0 < Real.exp (-(max (-500) (min 500 x))) := Real.exp_pos _
  constructor
  · positivity
  · rw [div_le_one (by linarith)]
    linarith

end NeuralNet

/-- C7: for every weight vector and every input vector (of any real
magnitudes), `decide` returns a turn delta in `[-π/2, π/2]`, a speed
multiplier in `[0.5, 1.5]`, and an exploration tendency in `[0, 1]`. -/
theorem c7_decide_output_ranges (weights vision : ℕ → ℝ)
    (food_pheromone_ahead home_pheromone_ahead colony_distance
      colony_direction : ℝ) (carrying_food : Bool) (energy : ℝ) :
    (-(Real.pi / 2) ≤ (NeuralNet.decide weights vision food_pheromone_ahead
        home_pheromone_ahead colony_distance colony_direction carrying_food
        energy).1 ∧
      (NeuralNet.decide weights vision food_pheromone_ahead
        home_pheromone_ahead colony_distance colony_direction carrying_food
        energy).1 ≤ Real.pi / 2) ∧
    ((0.5 : ℝ) ≤ (NeuralNet.decide weights vision food_pheromone_ahead
        home_pheromone_ahead colony_distance colony_direction carrying_food
        energy).2.1 ∧
      (NeuralNet.decide weights vision food_pheromone_ahead
        home_pheromone_ahead colony_distance colony_direction carrying_food
        energy).2.1 ≤ 1.5) ∧
    ((0 : ℝ) ≤ (NeuralNet.decide weights vision food_pheromone_ahead
        home_pheromone_ahead colony_distance colony_direction carrying_food
        energy).2.2 ∧
      (NeuralNet.decide weights vision food_pheromone_ahead
        home_pheromone_ahead colony_distance colony_direction carrying_food
        energy).2.2 ≤ 1) := by
  unfold NeuralNet.decide NeuralNet.forward
  simp only
  have hpi : (0 : ℝ) < Real.pi / 2 := by positivity
  obtain ⟨ht1, ht2⟩ := NeuralNet.tanh_mem
    (NeuralNet.b_o weights 0 +
      ∑ j ∈ Finset.range NeuralNet.HIDDEN_SIZE, _ * NeuralNet.w_ho weights j 0)
  obtain ⟨hs1a, hs1b⟩ := NeuralNet.sigmoid_mem
    (NeuralNet.b_o weights 1 +
      ∑ j ∈ Finset.range NeuralNet.HIDDEN_SIZE, _ * NeuralNet.w_ho weights j 1)
  obtain ⟨hs2a, hs2b⟩ := NeuralNet.sigmoid_mem
    (NeuralNet.b_o weights 2 +
      ∑ j ∈ Finset.range NeuralNet.HIDDEN_SIZE, _ * NeuralNet.w_ho weights j 2)
  refine ⟨⟨?_, ?_⟩, ⟨by linarith, by linarith⟩, ⟨by linarith, by linarith⟩⟩
  · nlinarith
  · nlinarith

/-! ### Trail sensing: `PheromoneModel.get_trail_direction`

The eight neighbor offsets are scanned in the fixed source order; a
neighbor below the detection threshold is skipped *before* the backward
discount, and the discounted strength competes in the running maximum. -/

/-- `math.atan2(dy, dx)` evaluated at the eight neighbor offsets used by
`get_trail_direction` (its only call sites in that function). -/
noncomputable def dirAngle (dx dy : ℤ) : ℝ :=
  if dx = 1 ∧ dy = 0 then 0
  else if dx = 1 ∧ dy = 1 then Real.pi / 4
  else if dx = 0 ∧ dy = 1 then Real.pi / 2
  else if dx = -1 ∧ dy = 1 then 3 * Real.pi / 4
  else if dx = -1 ∧ dy = 0 then Real.pi
  else if dx = -1 ∧ dy = -1 then -(3 * Real.pi / 4)
  else if dx = 0 ∧ dy = -1 then -(Real.pi / 2)
  else if dx = 1 ∧ dy = -1 then -(Real.pi / 4)
  else 0

/-- The loop `while angle_diff > math.pi: angle_diff = abs(angle_diff -
2*math.pi)`, with explicit fuel.  One pass on `x ∈ (π, 3π]` lands in
`[0, π]` and larger inputs shrink by `2π > 6` per pass, so `⌈x⌉₊` passes
always suffice. -/
noncomputable def normLoop : ℕ → ℝ → ℝ
  | 0, x => x
  | n + 1, x =>
    if x > Real.pi then normLoop n |x - 2 * Real.pi| else x

/-- Normalized absolute angle difference as computed by
`get_trail_direction`. -/
noncomputable def normAngleDiff (x : ℝ) : ℝ := normLoop ⌈x⌉₊ x

theorem normAngleDiff_of_le (x : ℝ) (h : x ≤ Real.pi) : normAngleDiff x = x := by
  unfold normAngleDiff
  cases hc : ⌈x⌉₊ with
  | zero => rfl
  | succ n => simp [normLoop, not_lt.mpr h]

/-- The neighbor-scan order of `get_trail_direction` (`directions` in the
source). -/
def trailDirections : List (ℤ × ℤ) :=
  [(-1, -1), (0, -1), (1, -1), (-1, 0), (1, 0), (-1, 1), (0, 1), (1, 1)]

open Classical in
/-- The forward-bias block of `get_trail_direction`: the strength is
multiplied by `0.3` when the neighbor's direction differs from the
supplied heading by more than 90° (after the angle-difference
normalization loop); with no heading it passes through unchanged. -/
noncomputable def discountedStrength (strength : ℚ) (dx dy : ℤ) :
    Option ℝ → ℚ
  | none => strength
  | some c =>
    if normAngleDiff |dirAngle dx dy - c| > Real.pi / 2 then
      strength * (3 / 10)
    else strength

open Classical in
/-- The body of the `for dx, dy in directions` loop: skip neighbors below
the detection threshold, apply the backward discount, and keep the
running maximum `(best_strength, best_dir)`. -/
noncomputable def trailScan (layer : PheromoneLayer) (gx gy : ℤ)
    (current_dir : Option ℝ) :
    List (ℤ × ℤ) → ℚ × Option ℝ → ℚ × Option ℝ
  | [], acc => acc
  | (dx, dy) :: rest, (best_strength, best_dir) =>
    let strength := layer.get (gx + dx) (gy + dy)
    if strength < PheromoneModel.detection_threshold then
      trailScan layer gx gy current_dir rest (best_strength, best_dir)
    else
      let strength2 := discountedStrength strength dx dy current_dir
      if best_strength < strength2 then
        trailScan layer gx gy current_dir rest (strength2, some (dirAngle dx dy))
      else
        trailScan layer gx gy current_dir rest (best_strength, best_dir)

theorem trailScan_cons (layer : PheromoneLayer) (gx gy : ℤ)
    (cd : Option ℝ) (dx dy : ℤ) (rest : List (ℤ × ℤ)) (bs : ℚ)
    (bd : Option ℝ) :
    trailScan layer gx gy cd ((dx, dy) :: rest) (bs, bd) =
      if layer.get (gx + dx) (gy + dy) < PheromoneModel.detection_threshold then
        trailScan layer gx gy cd rest (bs, bd)
      else if bs < discountedStrength (layer.get (gx + dx) (gy + dy)) dx dy cd then
        trailScan layer gx gy cd rest
          (discountedStrength (layer.get (gx + dx) (gy + dy)) dx dy cd,
            some (dirAngle dx dy))
      else trailScan layer gx gy cd rest (bs, bd) := rfl

/-- `PheromoneModel.get_trail_direction(x, y, ptype, current_dir)`. -/
noncomputable def PheromoneModel.get_trail_direction (m : PheromoneModel)
    (x y : ℚ) (pt : PheromoneKind) (current_dir : Option ℝ) : Option ℝ :=
  (trailScan (m.get_layer pt) (m.to_grid x y).1 (m.to_grid x y).2 current_dir
    trailDirections (0, none)).2

/-- The winning `best_strength` of the same scan — the value whose
victory in the running maximum causes an angle to be returned. -/
noncomputable def PheromoneModel.trailBestStrength (m : PheromoneModel)
    (x y : ℚ) (pt : PheromoneKind) (current_dir : Option ℝ) : ℚ :=
  (trailScan (m.get_layer pt) (m.to_grid x y).1 (m.to_grid x y).2 current_dir
    trailDirections (0, none)).1

theorem trailScan_some (layer : PheromoneLayer) (gx gy : ℤ)
    (cd : Option ℝ) (dirs : List (ℤ × ℤ)) (acc : ℚ × Option ℝ) (θ : ℝ)
    (h : (trailScan layer gx gy cd dirs acc).2 = some θ) :
    acc.2 = some θ ∨ ∃ p ∈ dirs, θ = dirAngle p.1 p.2 ∧
      PheromoneModel.detection_threshold ≤ layer.get (gx + p.1) (gy + p.2) := by
  induction dirs generalizing acc with
  | nil => exact Or.inl h
  | cons d rest ih =>
    obtain ⟨dx, dy⟩ := d
    obtain ⟨bs, bd⟩ := acc
    rw [trailScan_cons] at h
    by_cases hth : layer.get (gx + dx) (gy + dy) <
        PheromoneModel.detection_threshold
    · rw [if_pos hth] at h
      rcases ih _ h with h1 | ⟨p, hp, h2⟩
      · exact Or.inl h1
      · exact Or.inr ⟨p, List.mem_cons_of_mem _ hp, h2⟩
    · rw [if_neg hth] at h
      by_cases hcmp : bs < discountedStrength (layer.get (gx + dx) (gy + dy)) dx dy cd
      · rw [if_pos hcmp] at h
        rcases ih _ h with h1 | ⟨p, hp, h2⟩
        · refine Or.inr ⟨(dx, dy), List.mem_cons_self _ _, ?_, not_lt.mp hth⟩
          exact (Option.some_inj.mp h1).symm
        · exact Or.inr ⟨p, List.mem_cons_of_mem _ hp, h2⟩
      · rw [if_neg hcmp] at h
        rcases ih _ h with h1 | ⟨p, hp, h2⟩
        · exact Or.inl h1
        · exact Or.inr ⟨p, List.mem_cons_of_mem _ hp, h2⟩

/-- C8 (amended): whenever `get_trail_direction` returns an angle, the
angle is that of one of the eight scanned neighbors whose *raw stored*
strength is at or above the detection threshold.  (The value that wins
the running maximum, however, is the ×0.3-discounted strength and can lie
below the threshold; see the counterexample.) -/
theorem c8_trail_direction_threshold (m : PheromoneModel) (x y : ℚ)
    (pt : PheromoneKind) (current_dir : Option ℝ) (θ : ℝ)
    (h : m.get_trail_direction x y pt current_dir = some θ) :
    ∃ p ∈ trailDirections, θ = dirAngle p.1 p.2 ∧
      PheromoneModel.detection_threshold ≤
        (m.get_layer pt).get ((m.to_grid x y).1 + p.1)
          ((m.to_grid x y).2 + p.2) := by
  rcases trailScan_some (m.get_layer pt) (m.to_grid x y).1 (m.to_grid x y).2
      current_dir trailDirections (0, none) θ h with h1 | h2
  · exact absurd h1 (by simp)
  · exact h2

/-- A concrete 3×3 field whose only strong cell is the east neighbor of
the center cell: `grid[1][2] = 12.0` in the food layer. -/
def eastTrailModel : PheromoneModel :=
  { width := 60, height := 60,
    food_trail :=
      { grid_width := 3, grid_height := 3,
        grid := fun gx gy => if gx = 2 ∧ gy = 1 then 12 else 0 },
    home_trail := PheromoneLayer.init 3 3 }

theorem eastTrailModel_to_grid : eastTrailModel.to_grid 30 30 = (1, 1) := by
  unfold PheromoneModel.to_grid eastTrailModel PheromoneModel.grid_width
    PheromoneModel.grid_height PheromoneModel.cell_size
  norm_num

theorem eastTrailModel_get (dx dy : ℤ) :
    eastTrailModel.food_trail.get (1 + dx) (1 + dy) =
      if dx = 1 ∧ dy = 0 then 12 else 0 := by
  unfold eastTrailModel PheromoneLayer.get
  by_cases h1 : dx = 1 ∧ dy = 0
  · obtain ⟨rfl, rfl⟩ := h1
    norm_num
  · rw [if_neg h1]
    split
    · show (if 1 + dx = 2 ∧ 1 + dy = 1 then (12 : ℚ) else 0) = 0
      rw [if_neg (by omega)]
    · rfl

theorem trailScan_nil (layer : PheromoneLayer) (gx gy : ℤ) (cd : Option ℝ)
    (acc : ℚ × Option ℝ) : trailScan layer gx gy cd [] acc = acc := rfl

theorem discountedStrength_none (s : ℚ) (dx dy : ℤ) :
    discountedStrength s dx dy none = s := rfl

theorem discountedStrength_some (s : ℚ) (dx dy : ℤ) (c : ℝ) :
    discountedStrength s dx dy (some c) =
      if normAngleDiff |dirAngle dx dy - c| > Real.pi / 2 then s * (3 / 10)
      else s := rfl

theorem eastTrail_skip (dx dy : ℤ) (h : ¬(dx = 1 ∧ dy = 0)) :
    eastTrailModel.food_trail.get (1 + dx) (1 + dy) <
      PheromoneModel.detection_threshold := by
  rw [eastTrailModel_get, if_neg h]
  norm_num [PheromoneModel.detection_threshold]

theorem eastTrail_hit :
    ¬ eastTrailModel.food_trail.get (1 + 1) (1 + 0) <
      PheromoneModel.detection_threshold := by
  rw [eastTrailModel_get, if_pos ⟨rfl, rfl⟩]
  norm_num [PheromoneModel.detection_threshold]

/-- Counterexample to C8 as stated: with heading `π` (facing west), the
east neighbor of strength `12 ≥ 10` is discounted to `12 × 0.3 = 3.6`;
that discounted value wins the maximum (all other neighbors are skipped),
so an angle is returned although the winning value `3.6` is below the
detection threshold `10`. -/
theorem c8_counterexample :
    eastTrailModel.get_trail_direction 30 30 .food_trail (some Real.pi) =
        some 0 ∧
      eastTrailModel.trailBestStrength 30 30 .food_trail (some Real.pi) =
        18 / 5 ∧
      (18 / 5 : ℚ) < PheromoneModel.detection_threshold := by
  have hpi0 : (0 : ℝ) ≤ Real.pi := Real.pi_pos.le
  have hdisc : normAngleDiff |dirAngle 1 0 - Real.pi| > Real.pi / 2 := by
    have h1 : dirAngle 1 0 = 0 := if_pos ⟨rfl, rfl⟩
    have h2 : |(0 : ℝ) - Real.pi| = Real.pi := by
      rw [zero_sub, abs_neg, abs_of_nonneg hpi0]
    rw [h1, h2, normAngleDiff_of_le _ le_rfl]
    linarith [Real.pi_pos]
  have hds : discountedStrength (eastTrailModel.food_trail.get (1 + 1) (1 + 0))
      1 0 (some Real.pi) = 18 / 5 := by
    rw [eastTrailModel_get, if_pos ⟨rfl, rfl⟩, discountedStrength_some,
      if_pos hdisc]
    norm_num
  have hscan : trailScan eastTrailModel.food_trail 1 1 (some Real.pi)
      trailDirections (0, none) = (18 / 5, some (dirAngle 1 0)) := by
    show trailScan eastTrailModel.food_trail 1 1 (some Real.pi)
      [(-1, -1), (0, -1), (1, -1), (-1, 0), (1, 0), (-1, 1), (0, 1), (1, 1)]
      (0, none) = (18 / 5, some (dirAngle 1 0))
    rw [trailScan_cons, if_pos (eastTrail_skip (-1) (-1) (by norm_num))]
    rw [trailScan_cons, if_pos (eastTrail_skip 0 (-1) (by norm_num))]
    rw [trailScan_cons, if_pos (eastTrail_skip 1 (-1) (by norm_num))]
    rw [trailScan_cons, if_pos (eastTrail_skip (-1) 0 (by norm_num))]
    rw [trailScan_cons, if_neg eastTrail_hit, hds,
      if_pos (by norm_num : (0 : ℚ) < 18 / 5)]
    rw [trailScan_cons, if_pos (eastTrail_skip (-1) 1 (by norm_num))]
    rw [trailScan_cons, if_pos (eastTrail_skip 0 1 (by norm_num))]
    rw [trailScan_cons, if_pos (eastTrail_skip 1 1 (by norm_num))]
    exact trailScan_nil _ _ _ _ _
  have hga : eastTrailModel.get_layer .food_trail = eastTrailModel.food_trail := rfl
  have hd10 : dirAngle 1 0 = 0 := if_pos ⟨rfl, rfl⟩
  refine ⟨?_, ?_, by norm_num [PheromoneModel.detection_threshold]⟩
  · unfold PheromoneModel.get_trail_direction
    rw [hga, eastTrailModel_to_grid]
    rw [show ((1, 1) : ℤ × ℤ).1 = 1 from rfl, show ((1, 1) : ℤ × ℤ).2 = 1 from rfl,
      hscan, hd10]
  · unfold PheromoneModel.trailBestStrength
    rw [hga, eastTrailModel_to_grid]
    rw [show ((1, 1) : ℤ × ℤ).1 = 1 from rfl, show ((1, 1) : ℤ × ℤ).2 = 1 from rfl,
      hscan]

/-- Witness for C8: with no heading supplied, the same field returns the
east neighbor's angle `0`, and that neighbor's raw strength `12` is
indeed at or above the threshold. -/
theorem c8_trail_direction_threshold_witness :
    eastTrailModel.get_trail_direction 30 30 .food_trail none = some 0 ∧
      (∃ p ∈ trailDirections, (0 : ℝ) = dirAngle p.1 p.2 ∧
        PheromoneModel.detection_threshold ≤
          (eastTrailModel.get_layer .food_trail).get
            ((eastTrailModel.to_grid 30 30).1 + p.1)
            ((eastTrailModel.to_grid 30 30).2 + p.2)) := by
  have hga : eastTrailModel.get_layer .food_trail = eastTrailModel.food_trail := rfl
  have hd10 : dirAngle 1 0 = 0 := if_pos ⟨rfl, rfl⟩
  have hds : discountedStrength (eastTrailModel.food_trail.get (1 + 1) (1 + 0))
      1 0 none = 12 := by
    rw [eastTrailModel_get, if_pos ⟨rfl, rfl⟩, discountedStrength_none]
  have hscan : trailScan eastTrailModel.food_trail 1 1 none
      trailDirections (0, none) = (12, some (dirAngle 1 0)) := by
    show trailScan eastTrailModel.food_trail 1 1 none
      [(-1, -1), (0, -1), (1, -1), (-1, 0), (1, 0), (-1, 1), (0, 1), (1, 1)]
      (0, none) = (12, some (dirAngle 1 0))
    rw [trailScan_cons, if_pos (eastTrail_skip (-1) (-1) (by norm_num))]
    rw [trailScan_cons, if_pos (eastTrail_skip 0 (-1) (by norm_num))]
    rw [trailScan_cons, if_pos (eastTrail_skip 1 (-1) (by norm_num))]
    rw [trailScan_cons, if_pos (eastTrail_skip (-1) 0 (by norm_num))]
    rw [trailScan_cons, if_neg eastTrail_hit, hds,
      if_pos (by norm_num : (0 : ℚ) < 12)]
    rw [trailScan_cons, if_pos (eastTrail_skip (-1) 1 (by norm_num))]
    rw [trailScan_cons, if_pos (eastTrail_skip 0 1 (by norm_num))]
    rw [trailScan_cons, if_pos (eastTrail_skip 1 1 (by norm_num))]
    exact trailScan_nil _ _ _ _ _
  have hres : eastTrailModel.get_trail_direction 30 30 .food_trail none = some 0 := by
    unfold PheromoneModel.get_trail_direction
    rw [hga, eastTrailModel_to_grid]
    rw [show ((1, 1) : ℤ × ℤ).1 = 1 from rfl, show ((1, 1) : ℤ × ℤ).2 = 1 from rfl,
      hscan, hd10]
  refine ⟨hres, ?_⟩
  exact c8_trail_direction_threshold eastTrailModel 30 30 .food_trail none 0 hres

/-! ### Ant agent (src/src/ant.py)

The agent state is embedded field-for-field (floats as `ℝ`, frame
counters as `ℕ`); the lazily-created attributes (`time_since_food`,
`stuck_counter`, `wall_stuck_time`, `prev_x`, `prev_y`) are ordinary
fields initialized to the value the first `update` would give them.  The
environment the agent reads — wall manager queries, the pheromone field's
trail responses, peer positions, colony position, bounds — is a record of
response functions; `random.uniform`/`random.random` calls consume
successive values of an oracle stream `rand : ℕ → ℝ` through an explicit
index.  `math.atan2(y, x)` is `Complex.arg (x + y·i)` (both have range
`(-π, π]`). -/

/-- `math.atan2(y, x)`. -/
noncomputable def atan2 (y x : ℝ) : ℝ := Complex.arg ⟨x, y⟩

/-- The loop `while angle_diff > math.pi: angle_diff -= 2*math.pi`
(fueled; each pass subtracts `2π > 6`, so `⌈|x|⌉₊` passes suffice). -/
noncomputable def wrapDown : ℕ → ℝ → ℝ
  | 0, x => x
  | n + 1, x => if x > Real.pi then wrapDown n (x - 2 * Real.pi) else x

/-- The loop `while angle_diff < -math.pi: angle_diff += 2*math.pi`. -/
noncomputable def wrapUp : ℕ → ℝ → ℝ
  | 0, x => x
  | n + 1, x => if x < -Real.pi then wrapUp n (x + 2 * Real.pi) else x

/-- The two sequential normalization loops used by `_forage` and
`_return_to_colony`. -/
noncomputable def wrapAngle (x : ℝ) : ℝ :=
  wrapUp ⌈|x|⌉₊ (wrapDown ⌈|x|⌉₊ x)

/-- `AntState` (ant.py). -/
inductive AntState where
  | FORAGING
  | RETURNING
  | IDLE
deriving DecidableEq

/-- Module-level and `__init__` constants of ant.py / config.py. -/
noncomputable def PHEROMONE_DEPOSIT : ℝ := 8

noncomputable def DEFAULT_SPEED : ℝ := 2

noncomputable def DEFAULT_PHEROMONE_SENSITIVITY : ℝ := 15 / 100

noncomputable def DEFAULT_PHEROMONE_STRENGTH : ℝ := 15 / 10

noncomputable def DEFAULT_ENERGY_EFFICIENCY : ℝ := 1 / 100

noncomputable def ANT_SMELL_RANGE : ℝ := 150

noncomputable def ANT_SMELL_STRENGTH : ℝ := 8 / 10

noncomputable def ANT_WANDER_TURN_RATE : ℝ := 15 / 100

def movement_check_interval : ℕ := 180

noncomputable def min_movement_distance : ℝ := 80

def max_escape_attempts : ℕ := 5

def max_trail_length : ℕ := 60

/-- The mutable per-agent state of `class Ant`. -/
structure Ant where
  x : ℝ
  y : ℝ
  radius : ℝ
  alive : Bool
  state : AntState
  carrying_food : Bool
  food_amount : ℝ
  knows_food_location : Bool
  last_food_x : Option ℝ
  last_food_y : Option ℝ
  energy : ℝ
  max_energy : ℝ
  speed : ℝ
  direction : ℝ
  previous_direction : ℝ
  pheromone_strength : ℝ
  pheromone_sensitivity : ℝ
  deposit_cooldown : ℕ
  food_collected : ℝ
  successful_trips : ℕ
  trail : List (ℝ × ℝ × ℕ)
  trail_update_counter : ℕ
  movement_timer : ℕ
  checkpoint_x : ℝ
  checkpoint_y : ℝ
  stuck_escape_count : ℕ
  time_since_food : ℕ
  prev_x : ℝ
  prev_y : ℝ
  stuck_counter : ℕ
  wall_stuck_time : ℕ

/-- Simulation bounds (a pygame `Rect` read through
`.left/.right/.top/.bottom`). -/
structure Bounds where
  left : ℝ
  right : ℝ
  top : ℝ
  bottom : ℝ

/-- The only wall fields the agent reads: `wall.rect.centerx/centery`. -/
structure WallRect where
  centerx : ℝ
  centery : ℝ

/-- A food source as the agent sees it (`food.x`, `food.y`,
`food.amount`). -/
structure FoodSrc where
  x : ℝ
  y : ℝ
  amount : ℝ

/-- The environment one `Ant.update` call reads: the wall manager's query
functions, the pheromone field's trail/danger responses (the danger one
is hypothetical — the attribute does not exist, see
`pheromoneModelMethods`), colony position, bounds and peer positions. -/
structure AntEnv where
  is_colliding : ℝ → ℝ → ℝ → Bool × Option WallRect
  push_out_of_wall : ℝ → ℝ → ℝ → ℝ × ℝ
  get_avoidance_direction : ℝ → ℝ → ℝ → ℝ → Bool × ℝ
  get_food_trail_direction : ℝ → ℝ → ℝ → Option ℝ
  get_danger_avoidance : ℝ → ℝ → ℝ → Bool × ℝ
  colony_pos : ℝ × ℝ
  bounds : Option Bounds
  peers : List (ℝ × ℝ)

/-- A pheromone deposit the agent hands to the field this tick. -/
structure TrailDeposit where
  x : ℝ
  y : ℝ
  amount : ℝ
  kind : PheromoneKind

open Classical

/-- `Ant._avoid_edges`: four sequential edge checks (each may turn and
consume one `uniform(0, 0.3)` draw), then one possible large random turn.
Returns the updated agent and random-stream index. -/
noncomputable def avoidEdges (a : Ant) (b : Bounds) (rand : ℕ → ℝ) (k : ℕ) :
    Ant × ℕ :=
  let edge_buffer : ℝ := 35
  let turn_strength : ℝ := 3 / 10
  let at_edge1 := a.x < b.left + edge_buffer
  let d1 := if a.x < b.left + edge_buffer ∧ Real.cos a.direction < 0 then
      a.direction + turn_strength + rand k
    else a.direction
  let k1 := if a.x < b.left + edge_buffer ∧ Real.cos a.direction < 0 then k + 1 else k
  let at_edge2 := at_edge1 ∨ a.x > b.right - edge_buffer
  let d2 := if a.x > b.right - edge_buffer ∧ Real.cos d1 > 0 then
      d1 - (turn_strength + rand k1)
    else d1
  let k2 := if a.x > b.right - edge_buffer ∧ Real.cos d1 > 0 then k1 + 1 else k1
  let at_edge3 := at_edge2 ∨ a.y < b.top + edge_buffer
  let d3 := if a.y < b.top + edge_buffer ∧ Real.sin d2 < 0 then
      d2 + turn_strength + rand k2
    else d2
  let k3 := if a.y < b.top + edge_buffer ∧ Real.sin d2 < 0 then k2 + 1 else k2
  let at_edge4 := at_edge3 ∨ a.y > b.bottom - edge_buffer
  let d4 := if a.y > b.bottom - edge_buffer ∧ Real.sin d3 > 0 then
      d3 - (turn_strength + rand k3)
    else d3
  let k4 := if a.y > b.bottom - edge_buffer ∧ Real.sin d3 > 0 then k3 + 1 else k3
  let d5 := if at_edge4 ∧ rand k4 < 4 / 10 then d4 + rand (k4 + 1) else d4
  let k5 := if at_edge4 then (if rand k4 < 4 / 10 then k4 + 2 else k4 + 1) else k4
  ({ a with direction := d5 }, k5)

/-- `Ant._avoid_other_ants`: sequential repulsion from each peer within
radius 25 (`peers` are the other live agents; the `other is self` case is
excluded by construction). -/
noncomputable def avoidOtherAnts (a : Ant) (peers : List (ℝ × ℝ)) : Ant :=
  peers.foldl
    (fun ant p =>
      let dx := ant.x - p.1
      let dy := ant.y - p.2
      let dist := Real.sqrt (dx ^ 2 + dy ^ 2)
      if dist < 25 ∧ dist > 0 then
        { ant with direction :=
            ant.direction * (1 - 3 / 10) + atan2 dy dx * (3 / 10) }
      else ant)
    a

/-- `_forage` priority 1: the first food source within pickup range 15
with remaining amount; take one unit, switch to `RETURNING`, face the
colony. -/
noncomputable def foragePickup (a : Ant) (colony_pos : ℝ × ℝ) :
    List FoodSrc → Option (Ant × List FoodSrc)
  | [] => none
  | f :: fs =>
    let dist := Real.sqrt ((a.x - f.x) ^ 2 + (a.y - f.y) ^ 2)
    if dist < 15 ∧ f.amount > 0 then
      some
        ({ a with
            carrying_food := true,
            food_amount := 1,
            state := .RETURNING,
            knows_food_location := true,
            last_food_x := some f.x,
            last_food_y := some f.y,
            direction := atan2 (colony_pos.2 - a.y) (colony_pos.1 - a.x),
            time_since_food := 0 },
          { f with amount := f.amount - 1 } :: fs)
    else
      match foragePickup a colony_pos fs with
      | some (a2, fs2) => some (a2, f :: fs2)
      | none => none

/-- `_forage` priority 2: the closest food source with positive amount
within the smell range, with its distance (running strict minimum,
initial bound `ANT_SMELL_RANGE`). -/
noncomputable def closestSmellable (a : Ant) (foods : List FoodSrc) :
    Option (FoodSrc × ℝ) :=
  foods.foldl
    (fun acc f =>
      if f.amount ≤ 0 then acc
      else
        let dist := Real.sqrt ((a.x - f.x) ^ 2 + (a.y - f.y) ^ 2)
        let cd := match acc with
          | none => ANT_SMELL_RANGE
          | some q => q.2
        if dist < cd then some (f, dist) else acc)
    none

/-- `_forage` priority 4: wander, with an outward bias within 250 of the
colony, plus one `uniform(-0.15, 0.15)` draw. -/
noncomputable def forageWander (a : Ant) (colony_pos : ℝ × ℝ)
    (colony_dist : ℝ) (rand : ℕ → ℝ) (k : ℕ) : Ant × ℕ :=
  let d1 :=
    if colony_dist < 250 then
      let outward := atan2 (a.y - colony_pos.2) (a.x - colony_pos.1)
      let bias := (250 - colony_dist) / 250 * (2 / 10)
      let diff := wrapAngle (outward - a.direction)
      a.direction + diff * bias
    else a.direction
  ({ a with direction := d1 + rand k }, k + 1)

/-- `Ant._forage`: the four-priority foraging decision. -/
noncomputable def forage (a : Ant) (env : AntEnv) (foods : List FoodSrc)
    (rand : ℕ → ℝ) (k : ℕ) : Ant × List FoodSrc × ℕ :=
  match foragePickup a env.colony_pos foods with
  | some (a2, fs2) => (a2, fs2, k)
  | none =>
    match closestSmellable a foods with
    | some (f, cd) =>
      let food_direction := atan2 (f.y - a.y) (f.x - a.x)
      let blend := ANT_SMELL_STRENGTH * (1 - cd / ANT_SMELL_RANGE)
      let diff := wrapAngle (food_direction - a.direction)
      ({ a with direction := a.direction + diff * blend + rand k }, foods, k + 1)
    | none =>
      let colony_dist :=
        Real.sqrt ((a.x - env.colony_pos.1) ^ 2 + (a.y - env.colony_pos.2) ^ 2)
      if colony_dist > 150 then
        match env.get_food_trail_direction a.x a.y a.direction with
        | some food_trail =>
          let diff := wrapAngle (food_trail - a.direction)
          if |diff| < Real.pi * (6 / 10) then
            ({ a with direction :=
                a.direction + diff * (25 / 100) * a.pheromone_sensitivity +
                  rand k }, foods, k + 1)
          else
            let r := forageWander a env.colony_pos colony_dist rand k
            (r.1, foods, r.2)
        | none =>
          let r := forageWander a env.colony_pos colony_dist rand k
          (r.1, foods, r.2)
      else
        let r := forageWander a env.colony_pos colony_dist rand k
        (r.1, foods, r.2)

/-- `Ant._return_to_colony`: drop off within radius 25 (recording the
delivered amount for `colony.add_food`), else steer toward the colony.
Returns `(agent, delivered, randIdx)`. -/
noncomputable def returnToColony (a : Ant) (colony_pos : ℝ × ℝ)
    (rand : ℕ → ℝ) (k : ℕ) : Ant × ℝ × ℕ :=
  let dist :=
    Real.sqrt ((a.x - colony_pos.1) ^ 2 + (a.y - colony_pos.2) ^ 2)
  if dist < 25 then
    ({ a with
        food_collected := a.food_collected + a.food_amount,
        successful_trips := a.successful_trips + 1,
        carrying_food := false,
        food_amount := 0,
        energy := min (a.energy + 20) a.max_energy,
        state := .FORAGING,
        direction := a.direction + Real.pi + rand k },
      a.food_amount, k + 1)
  else
    let target_direction :=
      atan2 (colony_pos.2 - a.y) (colony_pos.1 - a.x)
    let diff := wrapAngle (target_direction - a.direction)
    ({ a with direction := a.direction + diff * (4 / 10) + rand k }, 0, k + 1)

/-- `Ant._idle_behavior`. -/
noncomputable def idleBehavior (a : Ant) (rand : ℕ → ℝ) (k : ℕ) : Ant × ℕ :=
  if a.energy > a.max_energy * (8 / 10) then
    ({ a with state := .FORAGING }, k)
  else ({ a with direction := a.direction + rand k }, k + 1)

/-- Outcome of the movement-stagnation block at the top of `Ant.update`:
either the agent dies (escape attempts exhausted, `return False`) or
execution continues with the updated agent and random index. -/
inductive StuckOutcome where
  | dead (a : Ant)
  | go (a : Ant) (k : ℕ)

/-- The movement-based stuck-detection block of `Ant.update` (ant.py
lines 128-151): every `movement_check_interval` frames, compare the
distance moved since the checkpoint with `min_movement_distance`; on a
failed check increment the escape counter, dying after
`max_escape_attempts`, else take a random direction and a small random
teleport; finally reset checkpoint and timer. -/
noncomputable def stuckCheckBlock (a : Ant) (rand : ℕ → ℝ) (k : ℕ) :
    StuckOutcome :=
  let a0 := { a with movement_timer := a.movement_timer + 1 }
  if a0.movement_timer ≥ movement_check_interval then
    let dist_moved :=
      Real.sqrt ((a0.x - a0.checkpoint_x) ^ 2 + (a0.y - a0.checkpoint_y) ^ 2)
    if dist_moved < min_movement_distance then
      let a1 := { a0 with stuck_escape_count := a0.stuck_escape_count + 1 }
      if a1.stuck_escape_count ≥ max_escape_attempts then
        .dead { a1 with alive := false }
      else
        let a2 := { a1 with
          direction := rand k,
          x := a1.x + rand (k + 1),
          y := a1.y + rand (k + 2) }
        .go { a2 with
          checkpoint_x := a2.x, checkpoint_y := a2.y, movement_timer := 0 }
          (k + 3)
    else
      let a1 := { a0 with stuck_escape_count := 0 }
      .go { a1 with
        checkpoint_x := a1.x, checkpoint_y := a1.y, movement_timer := 0 } k
  else .go a0 k

/-- The part of `Ant._move` below the `get_danger_avoidance` call (ant.py
lines 456-517).  In the source this code is unreachable — the attribute
lookup just above it raises `AttributeError` — but it is embedded for
completeness and runs in the model only if the lookup were to succeed. -/
noncomputable def moveTail (a : Ant) (env : AntEnv) (rand : ℕ → ℝ) (k : ℕ) :
    Except PyError (Ant × ℕ) :=
  let da := env.get_danger_avoidance a.x a.y a.direction
  let a1 := if da.1 then { a with direction := a.direction + da.2 } else a
  let momentum : ℝ := 7 / 10
  let a2 := { a1 with
    direction := a1.previous_direction * momentum + a1.direction * (1 - momentum) }
  let a3 := { a2 with previous_direction := a2.direction }
  let a4 := { a3 with direction := a3.direction + rand k }
  let k1 := k + 1
  let dx := Real.cos a4.direction * a4.speed
  let dy := Real.sin a4.direction * a4.speed
  let new_x := a4.x + dx
  let new_y := a4.y + dy
  let col := env.is_colliding new_x new_y a4.radius
  let step : Except PyError (Ant × ℝ × ℝ × ℕ) :=
    if col.1 then
      match col.2 with
      | some wall =>
        let _p := env.push_out_of_wall new_x new_y a4.radius
        let away_angle := atan2 (a4.y - wall.centery) (a4.x - wall.centerx)
        .ok ({ a4 with
            direction := away_angle + rand k1,
            stuck_counter := a4.stuck_counter + 2 },
          a4.x, a4.y, k1 + 1)
      | none => .error (.attributeError "rect")
    else .ok (a4, new_x, new_y, k1)
  match step with
  | .error e => .error e
  | .ok (a5, nx, ny, k2) =>
    let a6 := { a5 with x := nx, y := ny }
    let dist := Real.sqrt ((a6.x - a6.prev_x) ^ 2 + (a6.y - a6.prev_y) ^ 2)
    let a7 :=
      if dist < 5 / 10 then { a6 with stuck_counter := a6.stuck_counter + 1 }
      else { a6 with stuck_counter := a6.stuck_counter - 1 }
    match env.bounds with
    | none => .ok (a7, k2)
    | some b =>
      let (a8, k3) :=
        if a7.x ≤ b.left then
          ({ a7 with x := b.left + 2, direction := rand k2 }, k2 + 1)
        else if a7.x ≥ b.right then
          ({ a7 with x := b.right - 2, direction := rand k2 }, k2 + 1)
        else (a7, k2)
      let (a9, k4) :=
        if a8.y ≤ b.top then
          ({ a8 with y := b.top + 2, direction := rand k3 }, k3 + 1)
        else if a8.y ≥ b.bottom then
          ({ a8 with y := b.bottom - 2, direction := rand k3 }, k3 + 1)
        else (a8, k3)
      .ok (a9, k4)

/-- `Ant._move` (ant.py lines 414-517).  The wall-stuck tracking and the
escape block run first; the proactive avoidance turn is applied; then the
source reads `pheromone_map.get_danger_avoidance`, an attribute
`PheromoneModel` does not define, so the flow reaches `moveTail` only if
that lookup succeeds (it never does — it raises `AttributeError`).  A
wall-stuck death `return`s early, before the failing lookup. -/
noncomputable def move (a : Ant) (env : AntEnv) (rand : ℕ → ℝ) (k : ℕ) :
    Except PyError (Ant × ℕ) :=
  let pr := env.is_colliding a.x a.y (a.radius * (5 / 10))
  let wallPhase : StuckOutcome :=
    if pr.1 then
      let a1 := { a with wall_stuck_time := a.wall_stuck_time + 1 }
      if a1.wall_stuck_time > 60 then .dead { a1 with alive := false }
      else
        let p := env.push_out_of_wall a1.x a1.y a1.radius
        .go { a1 with x := p.1, y := p.2 } k
    else .go { a with wall_stuck_time := 0 } k
  match wallPhase with
  | .dead ad => .ok (ad, k)
  | .go a2 k0 =>
    let a3 :=
      if a2.stuck_counter > 30 then
        let p := env.push_out_of_wall a2.x a2.y a2.radius
        { a2 with
            direction := rand k0, stuck_counter := 0, x := p.1, y := p.2 }
      else a2
    let k1 := if a2.stuck_counter > 30 then k0 + 1 else k0
    let av := env.get_avoidance_direction a3.x a3.y a3.direction 80
    let a4 := if av.1 then { a3 with direction := a3.direction + av.2 } else a3
    match lookupMethod pheromoneModelMethods "get_danger_avoidance" with
    | .error e => .error e
    | .ok _ => moveTail a4 env rand k1

/-- The outputs of one `Ant.update` call besides the liveness flag: the
updated agent, the (possibly consumed-from) food sources, the amount
delivered to the colony (`colony.add_food`), the pheromone deposits made,
and the next random-stream index. -/
structure AntStep where
  ant : Ant
  foods : List FoodSrc
  delivered : ℝ
  deposits : List TrailDeposit
  randIdx : ℕ

/-- `if bounds: self._avoid_edges(bounds)` (ant.py lines 174-175). -/
noncomputable def boundsPhase (env : AntEnv) (rand : ℕ → ℝ) (p : Ant × ℕ) :
    Ant × ℕ :=
  match env.bounds with
  | some b => avoidEdges p.1 b rand p.2
  | none => p

/-- `if self.deposit_cooldown > 0: self.deposit_cooldown -= 1` (ant.py
lines 178-179). -/
noncomputable def cooldownPhase (a : Ant) : Ant :=
  if a.deposit_cooldown > 0 then
    { a with deposit_cooldown := a.deposit_cooldown - 1 }
  else a

/-- `if other_ants: self._avoid_other_ants(other_ants)` (ant.py lines
182-183; an empty list is falsy). -/
noncomputable def peerPhase (env : AntEnv) (a : Ant) : Ant :=
  if env.peers ≠ [] then avoidOtherAnts a env.peers else a

/-- The state dispatch of ant.py lines 186-191, returning
`(agent, foods, delivered, randIdx)`. -/
noncomputable def behaviorDispatch (env : AntEnv) (foods : List FoodSrc)
    (rand : ℕ → ℝ) (a : Ant) (k : ℕ) : Ant × List FoodSrc × ℝ × ℕ :=
  match a.state with
  | .FORAGING =>
    let r := forage a env foods rand k
    (r.1, r.2.1, (0 : ℝ), r.2.2)
  | .RETURNING =>
    let r := returnToColony a env.colony_pos rand k
    (r.1, foods, r.2.1, r.2.2)
  | .IDLE =>
    let r := idleBehavior a rand k
    (r.1, foods, (0 : ℝ), r.2)

/-- Lines 174-191 of `Ant.update` composed: edge avoidance, cooldown
decay, peer repulsion, state-specific behavior. -/
noncomputable def updateBehaviorPhase (a2 : Ant) (env : AntEnv)
    (foods : List FoodSrc) (rand : ℕ → ℝ) (k1 : ℕ) :
    Ant × List FoodSrc × ℝ × ℕ :=
  let r3 := boundsPhase env rand (a2, k1)
  let a5 := peerPhase env (cooldownPhase r3.1)
  behaviorDispatch env foods rand a5 r3.2

/-- The visual-trail bookkeeping and cooldown-gated pheromone deposits
after `_move` (ant.py lines 196-228), returning the agent and the
deposits made. -/
noncomputable def updatePostMove (a7 : Ant) (env : AntEnv) :
    Ant × List TrailDeposit :=
  let a8 :=
    if a7.state = .RETURNING ∧ a7.carrying_food then
      let c := a7.trail_update_counter + 1
      if c ≥ 2 then
        let tr := a7.trail ++ [(a7.x, a7.y, 0)]
        { a7 with
          trail := if tr.length > max_trail_length then tr.tail else tr,
          trail_update_counter := 0 }
      else { a7 with trail_update_counter := c }
    else a7
  let a9 := { a8 with
    trail := ((a8.trail.map fun p => (p.1, p.2.1, p.2.2 + 1)).filter
      fun p => p.2.2 < max_trail_length * 5) }
  let colony_dist := Real.sqrt
    ((a9.x - env.colony_pos.1) ^ 2 + (a9.y - env.colony_pos.2) ^ 2)
  if a9.deposit_cooldown = 0 then
    if a9.state = .RETURNING ∧ a9.carrying_food then
      if colony_dist > 50 then
        ({ a9 with deposit_cooldown := 2 },
          [⟨a9.x, a9.y, PHEROMONE_DEPOSIT * a9.pheromone_strength,
            .food_trail⟩])
      else (a9, [])
    else if a9.state = .FORAGING then
      if colony_dist > 50 then
        ({ a9 with deposit_cooldown := 2 },
          [⟨a9.x, a9.y, PHEROMONE_DEPOSIT * a9.pheromone_strength,
            .home_trail⟩])
      else (a9, [])
    else (a9, [])
  else (a9, [])

/-- `Ant.update(pheromone_map, width, height, food_sources, colony_pos,
other_ants, bounds)` (ant.py lines 121-229): liveness short-circuit,
stagnation check, energy cost and death, then the behavior phases,
`_move`, and the post-move bookkeeping. -/
noncomputable def Ant.update (a : Ant) (env : AntEnv) (foods : List FoodSrc)
    (rand : ℕ → ℝ) (k : ℕ) : Except PyError (Bool × AntStep) :=
  if a.alive = false then .ok (false, ⟨a, foods, 0, [], k⟩)
  else
    match stuckCheckBlock a rand k with
    | .dead ad => .ok (false, ⟨ad, foods, 0, [], k⟩)
    | .go a1 k1 =>
      let a2 := { a1 with
        energy := a1.energy - DEFAULT_ENERGY_EFFICIENCY,
        time_since_food := a1.time_since_food + 1,
        prev_x := a1.x,
        prev_y := a1.y }
      if a2.energy ≤ 0 then .ok (false, ⟨a2, foods, 0, [], k1⟩)
      else
        let rb := updateBehaviorPhase a2 env foods rand k1
        match move rb.1 env rand rb.2.2.2 with
        | .error e => .error e
        | .ok (a7, k4) =>
          let pm := updatePostMove a7 env
          .ok (true, ⟨pm.1, rb.2.1, rb.2.2.1, pm.2, k4⟩)

/-- The agent fields `_move`'s wall-stuck check depends on, which the
behavior phases of `update` (edge avoidance, cooldown decay, peer
repulsion, foraging/returning/idling) never modify. -/
def bodyUnchanged (a b : Ant) : Prop :=
  b.x = a.x ∧ b.y = a.y ∧ b.radius = a.radius ∧
    b.wall_stuck_time = a.wall_stuck_time ∧ b.alive = a.alive

theorem bodyUnchanged_refl (a : Ant) : bodyUnchanged a a :=
  ⟨rfl, rfl, rfl, rfl, rfl⟩

theorem bodyUnchanged_trans (a b c : Ant) (h1 : bodyUnchanged a b)
    (h2 : bodyUnchanged b c) : bodyUnchanged a c := by
  obtain ⟨x1, y1, r1, w1, l1⟩ := h1
  obtain ⟨x2, y2, r2, w2, l2⟩ := h2
  exact ⟨x2.trans x1, y2.trans y1, r2.trans r1, w2.trans w1, l2.trans l1⟩

theorem avoidEdges_body (a : Ant) (b : Bounds) (rand : ℕ → ℝ) (k : ℕ) :
    bodyUnchanged a (avoidEdges a b rand k).1 :=
  ⟨rfl, rfl, rfl, rfl, rfl⟩

theorem avoidOtherAnts_body (peers : List (ℝ × ℝ)) (a : Ant) :
    bodyUnchanged a (avoidOtherAnts a peers) := by
  induction peers generalizing a with
  | nil => exact bodyUnchanged_refl a
  | cons p ps ih =>
    unfold avoidOtherAnts at ih ⊢
    rw [List.foldl_cons]
    refine bodyUnchanged_trans _ _ _ ?_ (ih _)
    simp only []
    split_ifs <;> exact ⟨rfl, rfl, rfl, rfl, rfl⟩

theorem foragePickup_body (a : Ant) (cp : ℝ × ℝ) (foods : List FoodSrc)
    (a2 : Ant) (fs2 : List FoodSrc)
    (h : foragePickup a cp foods = some (a2, fs2)) : bodyUnchanged a a2 := by
  induction foods generalizing fs2 with
  | nil => simp [foragePickup] at h
  | cons f fs ih =>
    unfold foragePickup at h
    simp only [] at h
    split_ifs at h
    · obtain ⟨h1, _⟩ := Prod.mk.injEq .. ▸ Option.some_inj.mp h
      exact h1 ▸ ⟨rfl, rfl, rfl, rfl, rfl⟩
    · revert h
      match hm : foragePickup a cp fs with
      | some (a3, fs3) =>
        intro h
        obtain ⟨h1, h2⟩ := Prod.mk.injEq .. ▸ Option.some_inj.mp h
        exact ih fs3 (h1 ▸ hm)
      | none => intro h; exact absurd h (by simp)

theorem forageWander_body (a : Ant) (cp : ℝ × ℝ) (cd : ℝ) (rand : ℕ → ℝ)
    (k : ℕ) : bodyUnchanged a (forageWander a cp cd rand k).1 :=
  ⟨rfl, rfl, rfl, rfl, rfl⟩

theorem forage_body (a : Ant) (env : AntEnv) (foods : List FoodSrc)
    (rand : ℕ → ℝ) (k : ℕ) : bodyUnchanged a (forage a env foods rand k).1 := by
  unfold forage
  simp only []
  match hm : foragePickup a env.colony_pos foods with
  | some (a2, fs2) => exact foragePickup_body a _ foods a2 fs2 hm
  | none =>
    match hcs : closestSmellable a foods with
    | some (f, cd) => exact ⟨rfl, rfl, rfl, rfl, rfl⟩
    | none =>
      split_ifs
      · match henv : env.get_food_trail_direction a.x a.y a.direction with
        | some ft =>
          simp only []
          split_ifs
          · exact ⟨rfl, rfl, rfl, rfl, rfl⟩
          · exact forageWander_body a _ _ rand k
        | none => exact forageWander_body a _ _ rand k
      · exact forageWander_body a _ _ rand k

theorem returnToColony_body (a : Ant) (cp : ℝ × ℝ) (rand : ℕ → ℝ) (k : ℕ) :
    bodyUnchanged a (returnToColony a cp rand k).1 := by
  unfold returnToColony
  simp only []
  split_ifs <;> exact ⟨rfl, rfl, rfl, rfl, rfl⟩

theorem idleBehavior_body (a : Ant) (rand : ℕ → ℝ) (k : ℕ) :
    bodyUnchanged a (idleBehavior a rand k).1 := by
  unfold idleBehavior
  split_ifs <;> exact ⟨rfl, rfl, rfl, rfl, rfl⟩

theorem stuckCheck_go_small (a : Ant) (rand : ℕ → ℝ) (k : ℕ)
    (h : a.movement_timer + 1 < movement_check_interval) :
    stuckCheckBlock a rand k =
      .go { a with movement_timer := a.movement_timer + 1 } k := by
  unfold stuckCheckBlock
  rw [if_neg (show ¬a.movement_timer + 1 ≥ movement_check_interval by omega)]

theorem stuckCheck_dead (a : Ant) (rand : ℕ → ℝ) (k : ℕ)
    (h1 : a.movement_timer + 1 ≥ movement_check_interval)
    (h2 : Real.sqrt ((a.x - a.checkpoint_x) ^ 2 + (a.y - a.checkpoint_y) ^ 2) <
      min_movement_distance)
    (h3 : a.stuck_escape_count + 1 ≥ max_escape_attempts) :
    stuckCheckBlock a rand k =
      .dead { a with
        movement_timer := a.movement_timer + 1,
        stuck_escape_count := a.stuck_escape_count + 1,
        alive := false } := by
  unfold stuckCheckBlock
  rw [if_pos (by exact h1), if_pos (by exact h2), if_pos (by exact h3)]

theorem stuckCheck_not_dead (a : Ant) (rand : ℕ → ℝ) (k : ℕ)
    (hnd : ¬(a.movement_timer + 1 ≥ movement_check_interval ∧
      Real.sqrt ((a.x - a.checkpoint_x) ^ 2 + (a.y - a.checkpoint_y) ^ 2) <
        min_movement_distance ∧
      a.stuck_escape_count + 1 ≥ max_escape_attempts)) :
    ∃ a1 k1, stuckCheckBlock a rand k = .go a1 k1 ∧ a1.energy = a.energy ∧
      a1.alive = a.alive := by
  unfold stuckCheckBlock
  by_cases hA : a.movement_timer + 1 ≥ movement_check_interval
  · rw [if_pos (by exact hA)]
    by_cases hB : Real.sqrt ((a.x - a.checkpoint_x) ^ 2 +
        (a.y - a.checkpoint_y) ^ 2) < min_movement_distance
    · rw [if_pos (by exact hB)]
      by_cases hC : a.stuck_escape_count + 1 ≥ max_escape_attempts
      · exact absurd ⟨hA, hB, hC⟩ hnd
      · rw [if_neg (by exact hC)]
        exact ⟨_, _, rfl, rfl, rfl⟩
    · rw [if_neg (by exact hB)]
      exact ⟨_, _, rfl, rfl, rfl⟩
  · rw [if_neg (by exact hA)]
    exact ⟨_, _, rfl, rfl, rfl⟩

theorem move_wall_death (a : Ant) (env : AntEnv) (rand : ℕ → ℝ) (k : ℕ)
    (hcol : (env.is_colliding a.x a.y (a.radius * (5 / 10))).1 = true)
    (hwst : a.wall_stuck_time + 1 > 60) :
    move a env rand k =
      .ok ({ a with
          wall_stuck_time := a.wall_stuck_time + 1,
          alive := false },
        k) := by
  simp only [move]
  rw [if_pos (show (env.is_colliding a.x a.y (a.radius * (5 / 10))).1 = true
    from hcol)]
  rw [if_pos (show ({ a with wall_stuck_time := a.wall_stuck_time + 1 } :
    Ant).wall_stuck_time > 60 from hwst)]

/-- When the agent dies the tick `update` is entered with `alive = False`
(set by `_move` on the previous tick), `update` returns `False`
immediately and changes nothing. -/
theorem update_dead_returns_false (a : Ant) (env : AntEnv)
    (foods : List FoodSrc) (rand : ℕ → ℝ) (k : ℕ) (h : a.alive = false) :
    Ant.update a env foods rand k = .ok (false, ⟨a, foods, 0, [], k⟩) := by
  unfold Ant.update
  rw [if_pos h]

/-- Energy/stagnation deaths return `False` from the same call. -/
theorem update_stagnation_death (a : Ant) (env : AntEnv)
    (foods : List FoodSrc) (rand : ℕ → ℝ) (k : ℕ) (halive : a.alive = true)
    (h1 : a.movement_timer + 1 ≥ movement_check_interval)
    (h2 : Real.sqrt ((a.x - a.checkpoint_x) ^ 2 + (a.y - a.checkpoint_y) ^ 2) <
      min_movement_distance)
    (h3 : a.stuck_escape_count + 1 ≥ max_escape_attempts) :
    ∃ step, Ant.update a env foods rand k = .ok (false, step) ∧
      step.ant.alive = false := by
  unfold Ant.update
  rw [if_neg (by simp [halive]), stuckCheck_dead a rand k h1 h2 h3]
  exact ⟨_, rfl, rfl⟩

theorem update_energy_death (a : Ant) (env : AntEnv) (foods : List FoodSrc)
    (rand : ℕ → ℝ) (k : ℕ) (halive : a.alive = true)
    (hnd : ¬(a.movement_timer + 1 ≥ movement_check_interval ∧
      Real.sqrt ((a.x - a.checkpoint_x) ^ 2 + (a.y - a.checkpoint_y) ^ 2) <
        min_movement_distance ∧
      a.stuck_escape_count + 1 ≥ max_escape_attempts))
    (hen : a.energy - DEFAULT_ENERGY_EFFICIENCY ≤ 0) :
    ∃ step, Ant.update a env foods rand k = .ok (false, step) := by
  obtain ⟨a1, k1, hgo, hE, _⟩ := stuckCheck_not_dead a rand k hnd
  unfold Ant.update
  rw [if_neg (by simp [halive]), hgo]
  simp only []
  rw [if_pos (show a1.energy - DEFAULT_ENERGY_EFFICIENCY ≤ 0 from hE ▸ hen)]
  exact ⟨_, rfl⟩

/-- Phase lemmas: none of the behavior phases of `update` modify the
fields the wall-stuck check reads. -/
theorem boundsPhase_body (env : AntEnv) (rand : ℕ → ℝ) (p : Ant × ℕ) :
    bodyUnchanged p.1 (boundsPhase env rand p).1 := by
  unfold boundsPhase
  cases env.bounds with
  | none => exact bodyUnchanged_refl p.1
  | some b => exact avoidEdges_body p.1 b rand p.2

theorem cooldownPhase_body (a : Ant) : bodyUnchanged a (cooldownPhase a) := by
  unfold cooldownPhase
  split_ifs <;> exact ⟨rfl, rfl, rfl, rfl, rfl⟩

theorem peerPhase_body (env : AntEnv) (a : Ant) :
    bodyUnchanged a (peerPhase env a) := by
  unfold peerPhase
  split_ifs
  · exact avoidOtherAnts_body env.peers a
  · exact bodyUnchanged_refl a

theorem behaviorDispatch_body (env : AntEnv) (foods : List FoodSrc)
    (rand : ℕ → ℝ) (a : Ant) (k : ℕ) :
    bodyUnchanged a (behaviorDispatch env foods rand a k).1 := by
  unfold behaviorDispatch
  cases a.state with
  | FORAGING => exact forage_body a env foods rand k
  | RETURNING => exact returnToColony_body a env.colony_pos rand k
  | IDLE => exact idleBehavior_body a rand k

theorem updateBehaviorPhase_body (a2 : Ant) (env : AntEnv)
    (foods : List FoodSrc) (rand : ℕ → ℝ) (k1 : ℕ) :
    bodyUnchanged a2 (updateBehaviorPhase a2 env foods rand k1).1 := by
  unfold updateBehaviorPhase
  exact bodyUnchanged_trans _ _ _
    (bodyUnchanged_trans _ _ _
      (bodyUnchanged_trans _ _ _ (boundsPhase_body env rand (a2, k1))
        (cooldownPhase_body _))
      (peerPhase_body env _))
    (behaviorDispatch_body env foods rand _ _)

theorem updatePostMove_alive (a7 : Ant) (env : AntEnv) :
    (updatePostMove a7 env).1.alive = a7.alive := by
  unfold updatePostMove
  simp only []
  split_ifs <;> rfl

/-- The wall-stuck timeout kills the agent inside `_move` but that same
`update` call still returns `True`: removal is deferred to the next
tick. -/
theorem update_wall_stuck_returns_true (a : Ant) (env : AntEnv)
    (foods : List FoodSrc) (rand : ℕ → ℝ) (k : ℕ) (halive : a.alive = true)
    (htimer : a.movement_timer + 1 < movement_check_interval)
    (hen : ¬(a.energy - DEFAULT_ENERGY_EFFICIENCY ≤ 0))
    (hcol : (env.is_colliding a.x a.y (a.radius * (5 / 10))).1 = true)
    (hwst : a.wall_stuck_time + 1 > 60) :
    ∃ step, Ant.update a env foods rand k = .ok (true, step) ∧
      step.ant.alive = false := by
  unfold Ant.update
  rw [if_neg (by simp [halive]), stuckCheck_go_small a rand k htimer]
  simp only []
  rw [if_neg (show ¬({ a with movement_timer := a.movement_timer + 1 } :
    Ant).energy - DEFAULT_ENERGY_EFFICIENCY ≤ 0 from hen)]
  set a2 : Ant := { a with
    movement_timer := a.movement_timer + 1,
    energy := a.energy - DEFAULT_ENERGY_EFFICIENCY,
    time_since_food := a.time_since_food + 1,
    prev_x := a.x, prev_y := a.y } with ha2
  have hb : bodyUnchanged a (updateBehaviorPhase a2 env foods rand k).1 :=
    bodyUnchanged_trans _ _ _
      (show bodyUnchanged a a2 from ⟨rfl, rfl, rfl, rfl, rfl⟩)
      (updateBehaviorPhase_body a2 env foods rand k)
  obtain ⟨hx6, hy6, hr6, hw6, _⟩ := hb
  rw [move_wall_death (updateBehaviorPhase a2 env foods rand k).1 env rand
    (updateBehaviorPhase a2 env foods rand k).2.2.2
    (by rw [hx6, hy6, hr6]; exact hcol) (by rw [hw6]; exact hwst)]
  simp only []
  refine ⟨_, rfl, ?_⟩
  rw [updatePostMove_alive]

/-- C4 (amended): energy exhaustion and movement-stagnation escape
exhaustion make the same `update` call return `False`; the wall-stuck
timeout instead sets the liveness flag to `False` inside `_move` but that
same call returns `True` — the orchestrator removes the agent only on the
*following* call, which returns `False` immediately. -/
theorem c4_terminal_conditions (a : Ant) (env : AntEnv)
    (foods : List FoodSrc) (rand : ℕ → ℝ) (k : ℕ) :
    (a.alive = true →
      a.movement_timer + 1 ≥ movement_check_interval →
      Real.sqrt ((a.x - a.checkpoint_x) ^ 2 + (a.y - a.checkpoint_y) ^ 2) <
        min_movement_distance →
      a.stuck_escape_count + 1 ≥ max_escape_attempts →
      ∃ step, Ant.update a env foods rand k = .ok (false, step) ∧
        step.ant.alive = false) ∧
    (a.alive = true →
      ¬(a.movement_timer + 1 ≥ movement_check_interval ∧
        Real.sqrt ((a.x - a.checkpoint_x) ^ 2 + (a.y - a.checkpoint_y) ^ 2) <
          min_movement_distance ∧
        a.stuck_escape_count + 1 ≥ max_escape_attempts) →
      a.energy - DEFAULT_ENERGY_EFFICIENCY ≤ 0 →
      ∃ step, Ant.update a env foods rand k = .ok (false, step)) ∧
    (a.alive = true →
      a.movement_timer + 1 < movement_check_interval →
      ¬(a.energy - DEFAULT_ENERGY_EFFICIENCY ≤ 0) →
      (env.is_colliding a.x a.y (a.radius * (5 / 10))).1 = true →
      a.wall_stuck_time + 1 > 60 →
      ∃ step, Ant.update a env foods rand k = .ok (true, step) ∧
        step.ant.alive = false) ∧
    (a.alive = false →
      Ant.update a env foods rand k = .ok (false, ⟨a, foods, 0, [], k⟩)) :=
  ⟨fun h1 h2 h3 h4 => update_stagnation_death a env foods rand k h1 h2 h3 h4,
   fun h1 h2 h3 => update_energy_death a env foods rand k h1 h2 h3,
   fun h1 h2 h3 h4 h5 =>
     update_wall_stuck_returns_true a env foods rand k h1 h2 h3 h4 h5,
   fun h1 => update_dead_returns_false a env foods rand k h1⟩

/-- A concrete agent one frame short of its wall-stuck timeout: at
`(500, 300)`, foraging, full energy, `wall_stuck_time = 60`. -/
noncomputable def cexAnt : Ant :=
  { x := 500, y := 300, radius := 6, alive := true, state := .FORAGING,
    carrying_food := false, food_amount := 0, knows_food_location := false,
    last_food_x := none, last_food_y := none, energy := 100,
    max_energy := 100, speed := DEFAULT_SPEED, direction := 0,
    previous_direction := 0,
    pheromone_strength := DEFAULT_PHEROMONE_STRENGTH,
    pheromone_sensitivity := DEFAULT_PHEROMONE_SENSITIVITY,
    deposit_cooldown := 0, food_collected := 0, successful_trips := 0,
    trail := [], trail_update_counter := 0, movement_timer := 0,
    checkpoint_x := 500, checkpoint_y := 300, stuck_escape_count := 0,
    time_since_food := 0, prev_x := 500, prev_y := 300, stuck_counter := 0,
    wall_stuck_time := 60 }

/-- An environment in which the agent's position is inside a wall, with
no bounds, no peers, an empty trail response, and a colony at
`(300, 300)`. -/
noncomputable def cexEnv : AntEnv :=
  { is_colliding := fun _ _ _ => (true, none),
    push_out_of_wall := fun x y _ => (x, y),
    get_avoidance_direction := fun _ _ _ _ => (false, 0),
    get_food_trail_direction := fun _ _ _ => none,
    get_danger_avoidance := fun _ _ _ => (false, 0),
    colony_pos := (300, 300), bounds := none, peers := [] }

/-- Counterexample to C4 as stated: for this concrete agent the
wall-stuck terminal condition holds during the `update` call (and the
call does kill the agent — the returned state has `alive = False`), yet
that same call returns `True`; the orchestrator therefore removes the
agent one tick late. -/
theorem c4_counterexample :
    ((cexEnv.is_colliding cexAnt.x cexAnt.y (cexAnt.radius * (5 / 10))).1 =
        true ∧
      cexAnt.wall_stuck_time + 1 > 60) ∧
    (∃ step, Ant.update cexAnt cexEnv [] (fun _ => 0) 0 = .ok (true, step) ∧
      step.ant.alive = false) := by
  have hcol : (cexEnv.is_colliding cexAnt.x cexAnt.y
      (cexAnt.radius * (5 / 10))).1 = true := rfl
  have hwst : cexAnt.wall_stuck_time + 1 > 60 := by
    show 60 + 1 > 60
    omega
  refine ⟨⟨hcol, hwst⟩, ?_⟩
  refine update_wall_stuck_returns_true cexAnt cexEnv [] (fun _ => 0) 0 rfl
    ?_ ?_ hcol hwst
  · show 0 + 1 < movement_check_interval
    norm_num [movement_check_interval]
  · show ¬((100 : ℝ) - DEFAULT_ENERGY_EFFICIENCY ≤ 0)
    norm_num [DEFAULT_ENERGY_EFFICIENCY]

/-- Witness for C4: the amended theorem applied to the concrete wall-stuck
agent (third conjunct) and to an already-dead agent (fourth conjunct). -/
theorem c4_terminal_conditions_witness :
    (cexAnt.alive = true ∧
      cexAnt.movement_timer + 1 < movement_check_interval ∧
      ¬(cexAnt.energy - DEFAULT_ENERGY_EFFICIENCY ≤ 0) ∧
      (cexEnv.is_colliding cexAnt.x cexAnt.y
        (cexAnt.radius * (5 / 10))).1 = true ∧
      cexAnt.wall_stuck_time + 1 > 60) ∧
    (∃ step, Ant.update cexAnt cexEnv [] (fun _ => 0) 0 = .ok (true, step) ∧
      step.ant.alive = false) ∧
    Ant.update { cexAnt with alive := false } cexEnv [] (fun _ => 0) 0 =
      .ok (false, ⟨{ cexAnt with alive := false }, [], 0, [], 0⟩) := by
  have h1 : cexAnt.alive = true := rfl
  have h2 : cexAnt.movement_timer + 1 < movement_check_interval := by
    show 0 + 1 < movement_check_interval
    norm_num [movement_check_interval]
  have h3 : ¬(cexAnt.energy - DEFAULT_ENERGY_EFFICIENCY ≤ 0) := by
    show ¬((100 : ℝ) - DEFAULT_ENERGY_EFFICIENCY ≤ 0)
    norm_num [DEFAULT_ENERGY_EFFICIENCY]
  have h4 : (cexEnv.is_colliding cexAnt.x cexAnt.y
      (cexAnt.radius * (5 / 10))).1 = true := rfl
  have h5 : cexAnt.wall_stuck_time + 1 > 60 := by
    show 60 + 1 > 60
    omega
  refine ⟨⟨h1, h2, h3, h4, h5⟩, ?_, ?_⟩
  · exact (c4_terminal_conditions cexAnt cexEnv [] (fun _ => 0) 0).2.2.1
      h1 h2 h3 h4 h5
  · exact (c4_terminal_conditions { cexAnt with alive := false } cexEnv []
      (fun _ => 0) 0).2.2.2 rfl

/-! ### Maze generation (src/src/walls.py)

The logical wall/passage grid is a `List (List Bool)` indexed
`grid[y][x]`, `true` = wall.  Randomness is an oracle: `choice t` picks
the neighbor index at the `t`-th `random.choice` call (reduced mod the
list length), `ex` supplies the `random.randint` draws for extra
passages (reduced into the inclusive range exactly as `randint`
constrains them), and `coin i` is the outcome of the `i`-th
`random.random() < 0.5` test.  Out-of-range reads return `false` ("not a
wall"); Python never performs them because every access is
range-guarded. -/

abbrev Grid := List (List Bool)

def gridGet (g : Grid) (x y : ℕ) : Bool :=
  ((g[y]?.getD [])[x]?.getD false)

def gridSet (g : Grid) (x y : ℕ) (v : Bool) : Grid :=
  g.set y ((g[y]?.getD []).set x v)

/-- `True = wall, False = passage`, all wall initially. -/
def mkGrid (w h : ℕ) : Grid := List.replicate h (List.replicate w true)

/-- A cell that exists in the grid and is a passage. -/
def passCell (g : Grid) (c : ℕ × ℕ) : Bool :=
  match g[c.2]? with
  | some row =>
    match row[c.1]? with
    | some v => !v
    | none => false
  | none => false

/-- Number of wall cells, the termination measure of the carving loop. -/
def countTrue (g : Grid) : ℕ := (g.map (List.countP id)).sum

/-- `MazeGenerator._get_unvisited_neighbors`: the neighbors two cells
away, in the source's direction order, that are strictly inside the
border and still walls. -/
def mazeDirections : List (ℤ × ℤ) := [(0, -2), (0, 2), (-2, 0), (2, 0)]

def unvisitedNeighbors (g : Grid) (w h : ℕ) (x y : ℕ) : List (ℕ × ℕ) :=
  mazeDirections.filterMap fun d =>
    let nx := (x : ℤ) + d.1
    let ny := (y : ℤ) + d.2
    if 0 < nx ∧ nx < (w : ℤ) - 1 ∧ 0 < ny ∧ ny < (h : ℤ) - 1 ∧
        gridGet g nx.toNat ny.toNat = true then
      some (nx.toNat, ny.toNat)
    else none

theorem countP_set_false_le (l : List Bool) (x : ℕ) :
    (l.set x false).countP id ≤ l.countP id := by
  induction l generalizing x with
  | nil => simp
  | cons b bs ih =>
    cases x with
    | zero =>
      show List.countP id (false :: bs) ≤ List.countP id (b :: bs)
      rw [List.countP_cons, List.countP_cons]
      have hb : (if id false = true then 1 else 0) ≤
          (if id b = true then 1 else 0) := by
        cases b <;> simp
      omega
    | succ n =>
      show List.countP id (b :: bs.set n false) ≤ List.countP id (b :: bs)
      rw [List.countP_cons, List.countP_cons]
      have := ih n
      omega

theorem countP_set_false_lt (l : List Bool) (x : ℕ)
    (hv : l[x]? = some true) : (l.set x false).countP id < l.countP id := by
  induction l generalizing x with
  | nil => simp at hv
  | cons b bs ih =>
    cases x with
    | zero =>
      simp only [List.getElem?_cons_zero, Option.some_inj] at hv
      subst hv
      show List.countP id (false :: bs) < List.countP id (true :: bs)
      rw [List.countP_cons, List.countP_cons]
      have h1 : (if id false = true then 1 else 0) = 0 := by simp
      have h2 : (if id true = true then 1 else 0) = 1 := by simp
      omega
    | succ n =>
      simp only [List.getElem?_cons_succ] at hv
      show List.countP id (b :: bs.set n false) < List.countP id (b :: bs)
      rw [List.countP_cons, List.countP_cons]
      have := ih n hv
      omega

theorem sum_set_le (l : List ℕ) (i : ℕ) (v : ℕ)
    (h : ∀ w, l[i]? = some w → v ≤ w) : (l.set i v).sum ≤ l.sum := by
  induction l generalizing i with
  | nil => simp
  | cons b bs ih =>
    cases i with
    | zero =>
      simp only [List.set, List.sum_cons]
      have := h b (by simp)
      omega
    | succ n =>
      simp only [List.set, List.sum_cons]
      have := ih n (fun w hw => h w (by simpa using hw))
      omega

theorem sum_set_lt (l : List ℕ) (i : ℕ) (v w : ℕ) (hw : l[i]? = some w)
    (h : v < w) : (l.set i v).sum < l.sum := by
  induction l generalizing i with
  | nil => simp at hw
  | cons b bs ih =>
    cases i with
    | zero =>
      simp only [List.getElem?_cons_zero, Option.some_inj] at hw
      subst hw
      simp only [List.set, List.sum_cons]
      omega
    | succ n =>
      simp only [List.getElem?_cons_succ] at hw
      simp only [List.set, List.sum_cons]
      have := ih n hw
      omega

theorem countTrue_set_false_le (g : Grid) (x y : ℕ) :
    countTrue (gridSet g x y false) ≤ countTrue g := by
  unfold countTrue gridSet
  by_cases hy : y < g.length
  · rw [List.map_set]
    apply sum_set_le
    intro w hw
    rw [List.getElem?_map] at hw
    rw [List.getElem?_eq_getElem hy] at hw ⊢
    simp only [Option.map_some', Option.some_inj] at hw
    simp only [Option.getD_some]
    rw [← hw]
    exact countP_set_false_le _ _
  · rw [List.set_eq_of_length_le (Nat.le_of_not_lt hy)]

theorem gridGet_eq_true_iff (g : Grid) (x y : ℕ) :
    gridGet g x y = true ↔ ∃ row, g[y]? = some row ∧ row[x]? = some true := by
  unfold gridGet
  cases hy : g[y]? with
  | none =>
    simp
  | some row =>
    simp only [Option.getD_some]
    cases hx : row[x]? with
    | none =>
      simp [hx]
    | some v =>
      simp only [Option.getD_some]
      constructor
      · intro h
        exact ⟨row, rfl, by rw [hx, h]⟩
      · rintro ⟨row2, hr2, hv2⟩
        rw [Option.some_inj] at hr2
        subst hr2
        rw [hx, Option.some_inj] at hv2
        exact hv2

theorem getElem?_some_lt {α : Type} (l : List α) (i : ℕ) (a : α)
    (h : l[i]? = some a) : i < l.length := by
  by_contra hc
  rw [List.getElem?_eq_none (by omega)] at h
  cases h

theorem countTrue_set_false_lt (g : Grid) (x y : ℕ)
    (h : gridGet g x y = true) :
    countTrue (gridSet g x y false) < countTrue g := by
  obtain ⟨row, hrow, hval⟩ := (gridGet_eq_true_iff g x y).mp h
  unfold countTrue gridSet
  rw [List.map_set]
  have hrowd : g[y]?.getD [] = row := by rw [hrow]; rfl
  rw [hrowd]
  apply sum_set_lt _ y _ (row.countP id)
  · rw [List.getElem?_map, hrow]
    rfl
  · exact countP_set_false_lt row x hval

theorem mem_unvisitedNeighbors_wall (g : Grid) (w h : ℕ) (x y : ℕ)
    (p : ℕ × ℕ) (hp : p ∈ unvisitedNeighbors g w h x y) :
    gridGet g p.1 p.2 = true := by
  unfold unvisitedNeighbors at hp
  obtain ⟨d, _, hd⟩ := List.mem_filterMap.mp hp
  by_cases hc : 0 < (x : ℤ) + d.1 ∧ (x : ℤ) + d.1 < (w : ℤ) - 1 ∧
      0 < (y : ℤ) + d.2 ∧ (y : ℤ) + d.2 < (h : ℤ) - 1 ∧
      gridGet g ((x : ℤ) + d.1).toNat ((y : ℤ) + d.2).toNat = true
  · rw [if_pos hc, Option.some_inj] at hd
    rw [← hd]
    exact hc.2.2.2.2
  · rw [if_neg hc] at hd
    cases hd

/-- Carving the wall cell and then the picked cell strictly decreases
the number of wall cells, provided the picked cell was a wall: either
the wall-cell write already flipped the picked cell (then it was a
strict decrease itself), or the picked cell is flipped by the second
write. -/
theorem countTrue_double_set_lt (g : Grid) (wx wy px py : ℕ)
    (hp : gridGet g px py = true) :
    countTrue (gridSet (gridSet g wx wy false) px py false) < countTrue g := by
  by_cases hmid : gridGet (gridSet g wx wy false) px py = true
  · exact lt_of_lt_of_le (countTrue_set_false_lt _ px py hmid)
      (countTrue_set_false_le g wx wy)
  · have hfalse : gridGet (gridSet g wx wy false) px py = false :=
      Bool.eq_false_iff.mpr hmid
    have hwyeq : wy = py := by
      by_contra hney
      have heq : gridGet (gridSet g wx wy false) px py = gridGet g px py := by
        unfold gridGet gridSet
        rw [List.getElem?_set_ne hney]
      rw [heq, hp] at hfalse
      cases hfalse
    subst hwyeq
    obtain ⟨row, hrow, hval⟩ := (gridGet_eq_true_iff g px wy).mp hp
    have hlen : wy < g.length := getElem?_some_lt g wy row hrow
    have hrowd : g[wy]?.getD [] = row := by rw [hrow]; rfl
    have hwxeq : wx = px := by
      by_contra hnex
      have heq : gridGet (gridSet g wx wy false) px wy = gridGet g px wy := by
        unfold gridGet gridSet
        rw [List.getElem?_set_self hlen]
        simp only [Option.getD_some]
        rw [hrowd, List.getElem?_set_ne hnex]
      rw [heq, hp] at hfalse
      cases hfalse
    subst hwxeq
    exact lt_of_le_of_lt (countTrue_set_false_le _ _ _)
      (countTrue_set_false_lt g wx wy hp)

/-- The `while stack` loop of `MazeGenerator.generate`: pick a random
unvisited neighbor of the stack top, carve the wall between and the
neighbor, push it; pop when no unvisited neighbor remains. -/
def carveLoop (w h : ℕ) (choice : ℕ → ℕ) :
    Grid → List (ℕ × ℕ) → ℕ → Grid
  | g, [], _ => g
  | g, (x, y) :: stack, t =>
    let nbrs := unvisitedNeighbors g w h x y
    if hne : nbrs.length ≠ 0 then
      let pick := nbrs.get ⟨choice t % nbrs.length,
        Nat.mod_lt _ (Nat.pos_of_ne_zero hne)⟩
      let wx := ((x : ℤ) + (((pick.1 : ℤ) - (x : ℤ)) / 2)).toNat
      let wy := ((y : ℤ) + (((pick.2 : ℤ) - (y : ℤ)) / 2)).toNat
      let g2 := gridSet (gridSet g wx wy false) pick.1 pick.2 false
      carveLoop w h choice g2 (pick :: (x, y) :: stack) (t + 1)
    else
      carveLoop w h choice g stack t
termination_by g stack _ => (countTrue g, stack.length)
decreasing_by
  · apply Prod.Lex.left
    refine countTrue_double_set_lt g _ _ _ _ ?_
    exact mem_unvisitedNeighbors_wall g w h x y _ (List.get_mem _ _ _)
  · apply Prod.Lex.right
    simp only [List.length_cons]
    omega

/-- Fuel-bounded version of the carving loop, used to evaluate the loop on
concrete inputs; `carveLoopF_eq` shows it agrees with `carveLoop` whenever
the fuel exceeds the loop's termination measure. -/
def carveLoopF (w h : ℕ) (choice : ℕ → ℕ) :
    ℕ → Grid → List (ℕ × ℕ) → ℕ → Grid
  | 0, g, _, _ => g
  | _ + 1, g, [], _ => g
  | fuel + 1, g, (x, y) :: stack, t =>
    let nbrs := unvisitedNeighbors g w h x y
    if hne : nbrs.length ≠ 0 then
      let pick := nbrs.get ⟨choice t % nbrs.length,
        Nat.mod_lt _ (Nat.pos_of_ne_zero hne)⟩
      let wx := ((x : ℤ) + (((pick.1 : ℤ) - (x : ℤ)) / 2)).toNat
      let wy := ((y : ℤ) + (((pick.2 : ℤ) - (y : ℤ)) / 2)).toNat
      carveLoopF w h choice fuel
        (gridSet (gridSet g wx wy false) pick.1 pick.2 false)
        (pick :: (x, y) :: stack) (t + 1)
    else
      carveLoopF w h choice fuel g stack t

/-- The neighbor cell that `random.choice(neighbors)` picks at loop step `t`
(the oracle `choice` supplies the random index). -/
def carvePick (w h : ℕ) (choice : ℕ → ℕ) (g : Grid) (x y t : ℕ)
    (hne : (unvisitedNeighbors g w h x y).length ≠ 0) : ℕ × ℕ :=
  (unvisitedNeighbors g w h x y).get
    ⟨choice t % (unvisitedNeighbors g w h x y).length,
      Nat.mod_lt _ (Nat.pos_of_ne_zero hne)⟩

/-- The wall cell between the stack top `(x, y)` and the picked neighbor:
`wall_x = x + (nx - x) // 2`, `wall_y = y + (ny - y) // 2` (the division is
exact, so Python floor division and Lean integer division agree). -/
def carveMid (x y : ℕ) (p : ℕ × ℕ) : ℕ × ℕ :=
  (((x : ℤ) + (((p.1 : ℤ) - (x : ℤ)) / 2)).toNat,
   ((y : ℤ) + (((p.2 : ℤ) - (y : ℤ)) / 2)).toNat)

/-- `MazeGenerator.generate`: carve the starting cell and run the
backtracking loop. -/
def generate (w h : ℕ) (choice : ℕ → ℕ) (sx sy : ℕ) : Grid :=
  carveLoop w h choice (gridSet (mkGrid w h) sx sy false) [(sx, sy)] 0

/-- `MazeGenerator.clear_area`: carve every cell of the clipped square
neighborhood whose Euclidean distance from the center is at most the
radius.  Both sides of the float comparison `sqrt(dx^2+dy^2) <= r` square
to integers, and float `sqrt` is monotone and exact on perfect squares, so
the comparison is embedded as the equivalent integer comparison. -/
def clear_area (g : Grid) (w h : ℕ) (cx cy r : ℕ) : Grid :=
  (List.range' (max 1 (cy - r)) (min (h - 1) (cy + r + 1) - max 1 (cy - r))).foldl
    (fun (gAcc : Grid) (y : ℕ) =>
      (List.range' (max 1 (cx - r)) (min (w - 1) (cx + r + 1) - max 1 (cx - r))).foldl
        (fun (gAcc2 : Grid) (x : ℕ) =>
          if ((x : ℤ) - (cx : ℤ)) ^ 2 + ((y : ℤ) - (cy : ℤ)) ^ 2 ≤ (r : ℤ) ^ 2 then
            gridSet gAcc2 x y false
          else gAcc2) gAcc) g

/-- Direction order of the neighbor-clearing loop in
`MazeGenerator.add_extra_passages`. -/
def extraNeighborDirs : List (ℤ × ℤ) := [(0, 1), (0, -1), (1, 0), (-1, 0)]

def extraClearNeighbors (g : Grid) (w h : ℕ) (x y : ℕ) : Grid :=
  extraNeighborDirs.foldl
    (fun gAcc d =>
      if 0 < (x : ℤ) + d.1 ∧ (x : ℤ) + d.1 < (w : ℤ) - 1 ∧
          0 < (y : ℤ) + d.2 ∧ (y : ℤ) + d.2 < (h : ℤ) - 1 then
        gridSet gAcc ((x : ℤ) + d.1).toNat ((y : ℤ) + d.2).toNat false
      else gAcc) g

/-- `MazeGenerator.add_extra_passages`: `count` iterations; iteration `i`
draws `x = randint(2, grid_width - 3)` and `y = randint(2, grid_height - 3)`
(the oracle `ex` supplies the draws, reduced into the inclusive range, whose
size is `grid_width - 4` resp. `grid_height - 4`), carves that cell, and if
the `i`-th `random.random() < 0.5` test succeeds (`coin i`) also carves its
interior orthogonal neighbors. -/
def add_extra_passages (w h : ℕ) (ex : ℕ → ℕ) (coin : ℕ → Bool)
    (g : Grid) (count : ℕ) : Grid :=
  (List.range count).foldl
    (fun (gAcc : Grid) (i : ℕ) =>
      let x := 2 + ex (2 * i) % (w - 4)
      let y := 2 + ex (2 * i + 1) % (h - 4)
      let g1 := gridSet gAcc x y false
      if coin i then extraClearNeighbors g1 w h x y else g1) g

/-- The edge-clearing loops of `WallManager._create_walls`: rows `0`, `1`,
`h-1`, `h-2` and columns `0`, `1`, `w-1`, `w-2` become passages. -/
def clearBorders (g : Grid) (w h : ℕ) : Grid :=
  let g1 := (List.range w).foldl
    (fun (gAcc : Grid) (x : ℕ) =>
      gridSet (gridSet (gridSet (gridSet gAcc x 0 false) x 1 false)
        x (h - 1) false) x (h - 2) false) g
  (List.range h).foldl
    (fun (gAcc : Grid) (y : ℕ) =>
      gridSet (gridSet (gridSet (gridSet gAcc 0 y false) 1 y false)
        (w - 1) y false) (w - 2) y false) g1

/-- The logical passage grid built by `WallManager._create_walls` before
`to_walls` merges it into rectangles: grid dimensions from the area at 60
pixels per cell forced odd, maze generation from the odd-adjusted center,
colony clearing of radius 4 at the center, `grid_width * grid_height // 15`
extra passages, then border clearing. -/
def createWallsGrid (area_width area_height : ℕ) (choice ex : ℕ → ℕ)
    (coin : ℕ → Bool) : Grid :=
  let cell_size := 60
  let gw0 := area_width / cell_size
  let gh0 := area_height / cell_size
  let gw := if gw0 % 2 = 0 then gw0 - 1 else gw0
  let gh := if gh0 % 2 = 0 then gh0 - 1 else gh0
  let sx0 := gw / 2
  let sy0 := gh / 2
  let sx := if sx0 % 2 = 0 then sx0 + 1 else sx0
  let sy := if sy0 % 2 = 0 then sy0 + 1 else sy0
  let g1 := generate gw gh choice sx sy
  let g2 := clear_area g1 gw gh (gw / 2) (gh / 2) 4
  let g3 := add_extra_passages gw gh ex coin g2 (gw * gh / 15)
  clearBorders g3 gw gh

/-- Shape invariant: the grid is an `h`-row list of `w`-wide rows. -/
def gridShape (g : Grid) (w h : ℕ) : Prop :=
  g.length = h ∧ ∀ row ∈ g, row.length = w

/-- 4-neighbor adjacency of grid cells, the step relation of the spec's
flood-fill connectivity check. -/
def adjacentCells (c d : ℕ × ℕ) : Prop :=
  (c.1 = d.1 ∧ (c.2 + 1 = d.2 ∨ d.2 + 1 = c.2)) ∨
  (c.2 = d.2 ∧ (c.1 + 1 = d.1 ∨ d.1 + 1 = c.1))

/-- Flood-fill reachability over the passage cells of a grid. -/
def Reachable (g : Grid) (s c : ℕ × ℕ) : Prop :=
  Relation.ReflTransGen (fun a b => adjacentCells a b ∧ passCell g b = true) s c

theorem carveLoop_nil (w h : ℕ) (choice : ℕ → ℕ) (g : Grid) (t : ℕ) :
    carveLoop w h choice g [] t = g := by
  rw [carveLoop.eq_def]

theorem carveLoop_push (w h : ℕ) (choice : ℕ → ℕ) (g : Grid) (x y : ℕ)
    (stack : List (ℕ × ℕ)) (t : ℕ)
    (hne : (unvisitedNeighbors g w h x y).length ≠ 0) :
    carveLoop w h choice g ((x, y) :: stack) t =
      carveLoop w h choice
        (gridSet (gridSet g (carveMid x y (carvePick w h choice g x y t hne)).1
            (carveMid x y (carvePick w h choice g x y t hne)).2 false)
          (carvePick w h choice g x y t hne).1
          (carvePick w h choice g x y t hne).2 false)
        (carvePick w h choice g x y t hne :: (x, y) :: stack) (t + 1) := by
  rw [carveLoop.eq_def]
  simp only []
  rw [dif_pos hne]
  rfl

theorem carveLoop_pop (w h : ℕ) (choice : ℕ → ℕ) (g : Grid) (x y : ℕ)
    (stack : List (ℕ × ℕ)) (t : ℕ)
    (hne : ¬ (unvisitedNeighbors g w h x y).length ≠ 0) :
    carveLoop w h choice g ((x, y) :: stack) t = carveLoop w h choice g stack t := by
  rw [carveLoop.eq_def]
  simp only []
  rw [dif_neg hne]

theorem carveLoopF_push (w h : ℕ) (choice : ℕ → ℕ) (n : ℕ) (g : Grid)
    (x y : ℕ) (stack : List (ℕ × ℕ)) (t : ℕ)
    (hne : (unvisitedNeighbors g w h x y).length ≠ 0) :
    carveLoopF w h choice (n + 1) g ((x, y) :: stack) t =
      carveLoopF w h choice n
        (gridSet (gridSet g (carveMid x y (carvePick w h choice g x y t hne)).1
            (carveMid x y (carvePick w h choice g x y t hne)).2 false)
          (carvePick w h choice g x y t hne).1
          (carvePick w h choice g x y t hne).2 false)
        (carvePick w h choice g x y t hne :: (x, y) :: stack) (t + 1) := by
  simp only [carveLoopF]
  rw [dif_pos hne]
  rfl

theorem carveLoopF_pop (w h : ℕ) (choice : ℕ → ℕ) (n : ℕ) (g : Grid)
    (x y : ℕ) (stack : List (ℕ × ℕ)) (t : ℕ)
    (hne : ¬ (unvisitedNeighbors g w h x y).length ≠ 0) :
    carveLoopF w h choice (n + 1) g ((x, y) :: stack) t =
      carveLoopF w h choice n g stack t := by
  simp only [carveLoopF]
  rw [dif_neg hne]

/-- With fuel above the loop's termination measure, the fuel-bounded loop
computes exactly the unbounded loop. -/
theorem carveLoopF_eq (w h : ℕ) (choice : ℕ → ℕ) :
    ∀ (fuel : ℕ) (g : Grid) (stack : List (ℕ × ℕ)) (t : ℕ),
      2 * countTrue g + stack.length < fuel →
      carveLoopF w h choice fuel g stack t = carveLoop w h choice g stack t := by
  intro fuel
  induction fuel with
  | zero =>
    intro g stack t hf
    exact absurd hf (by omega)
  | succ n ih =>
    intro g stack t hf
    rcases stack with _ | ⟨⟨x, y⟩, stack⟩
    · rw [carveLoop_nil]
      rfl
    · by_cases hne : (unvisitedNeighbors g w h x y).length ≠ 0
      · rw [carveLoopF_push w h choice n g x y stack t hne,
          carveLoop_push w h choice g x y stack t hne]
        apply ih
        have hwall : gridGet g (carvePick w h choice g x y t hne).1
            (carvePick w h choice g x y t hne).2 = true :=
          mem_unvisitedNeighbors_wall g w h x y _ (List.get_mem _ _ _)
        have hlt := countTrue_double_set_lt g
          (carveMid x y (carvePick w h choice g x y t hne)).1
          (carveMid x y (carvePick w h choice g x y t hne)).2
          (carvePick w h choice g x y t hne).1
          (carvePick w h choice g x y t hne).2 hwall
        simp only [List.length_cons] at hf ⊢
        omega
      · rw [carveLoopF_pop w h choice n g x y stack t hne,
          carveLoop_pop w h choice g x y stack t hne]
        apply ih
        simp only [List.length_cons] at hf
        omega

theorem passCell_eq_true_iff (g : Grid) (c : ℕ × ℕ) :
    passCell g c = true ↔ ∃ row, g[c.2]? = some row ∧ row[c.1]? = some false := by
  unfold passCell
  cases hy : g[c.2]? with
  | none => simp
  | some row =>
    simp only []
    cases hx : row[c.1]? with
    | none => simp [hx]
    | some v =>
      simp only [hx]
      constructor
      · intro hv
        exact ⟨row, rfl, by rw [hx]; cases v with | false => rfl | true => cases hv⟩
      · rintro ⟨row2, hr2, hv2⟩
        rw [Option.some_inj] at hr2
        subst hr2
        rw [hx, Option.some_inj] at hv2
        rw [hv2]
        rfl

/-- Carving a cell never turns a passage back into a wall: passages are
monotone along the generation pipeline. -/
theorem passCell_gridSet_mono (g : Grid) (x y : ℕ) (c : ℕ × ℕ)
    (h : passCell g c = true) : passCell (gridSet g x y false) c = true := by
  rw [passCell_eq_true_iff] at h ⊢
  obtain ⟨row, hrow, hval⟩ := h
  by_cases hy : y = c.2
  · subst hy
    have hylen : c.2 < g.length := getElem?_some_lt g c.2 row hrow
    have hrowd : g[c.2]?.getD [] = row := by rw [hrow]; rfl
    refine ⟨(g[c.2]?.getD []).set x false, List.getElem?_set_self hylen, ?_⟩
    rw [hrowd]
    by_cases hx : x = c.1
    · subst hx
      exact List.getElem?_set_self (getElem?_some_lt row c.1 _ hval)
    · rw [List.getElem?_set_ne hx]
      exact hval
  · refine ⟨row, ?_, hval⟩
    unfold gridSet
    rw [List.getElem?_set_ne hy]
    exact hrow

/-- The only cell a carving write can newly turn into a passage is the cell
written. -/
theorem passCell_gridSet_cases (g : Grid) (x y : ℕ) (c : ℕ × ℕ)
    (h : passCell (gridSet g x y false) c = true) :
    c = (x, y) ∨ passCell g c = true := by
  by_cases hcxy : c = (x, y)
  · exact Or.inl hcxy
  · right
    rw [passCell_eq_true_iff] at h ⊢
    obtain ⟨row, hrow, hval⟩ := h
    by_cases hy : y = c.2
    · subst hy
      have hx : x ≠ c.1 := by
        intro hx
        apply hcxy
        rw [Prod.ext_iff]
        exact ⟨hx.symm, rfl⟩
      by_cases hylen : c.2 < g.length
      · unfold gridSet at hrow
        rw [List.getElem?_set_self hylen, Option.some_inj] at hrow
        rw [← hrow, List.getElem?_set_ne hx] at hval
        have hsome : g[c.2]? = some (g[c.2]?.getD []) := by
          rw [List.getElem?_eq_getElem hylen]
          rfl
        exact ⟨_, hsome, hval⟩
      · unfold gridSet at hrow
        rw [List.set_eq_of_length_le (Nat.le_of_not_lt hylen)] at hrow
        exact ⟨row, hrow, hval⟩
    · unfold gridSet at hrow
      rw [List.getElem?_set_ne hy] at hrow
      exact ⟨row, hrow, hval⟩

theorem gridShape_gridSet (g : Grid) (w h : ℕ) (hs : gridShape g w h)
    (x y : ℕ) (v : Bool) : gridShape (gridSet g x y v) w h := by
  by_cases hy : y < g.length
  · constructor
    · unfold gridSet
      rw [List.length_set]
      exact hs.1
    · intro row hrow
      rcases List.mem_or_eq_of_mem_set hrow with hmem | heq
      · exact hs.2 row hmem
      · subst heq
        rw [List.length_set]
        have hget : g[y]? = some (g.get ⟨y, hy⟩) := by
          rw [List.getElem?_eq_getElem hy]
          rfl
        rw [hget]
        exact hs.2 _ (List.get_mem _ _ _)
  · unfold gridSet
    rw [List.set_eq_of_length_le (Nat.le_of_not_lt hy)]
    exact hs

/-- Writing a passage value at an in-range cell makes it a passage. -/
theorem passCell_gridSet_self (g : Grid) (w h : ℕ) (hs : gridShape g w h)
    (x y : ℕ) (hx : x < w) (hy : y < h) :
    passCell (gridSet g x y false) (x, y) = true := by
  rw [passCell_eq_true_iff]
  have hylen : y < g.length := by
    rw [hs.1]
    exact hy
  refine ⟨(g[y]?.getD []).set x false, List.getElem?_set_self hylen, ?_⟩
  have hget : g[y]? = some (g.get ⟨y, hylen⟩) := by
    rw [List.getElem?_eq_getElem hylen]
    rfl
  have hlenrow : (g[y]?.getD []).length = w := by
    rw [hget]
    exact hs.2 _ (List.get_mem _ _ _)
  exact List.getElem?_set_self (by rw [hlenrow]; exact hx)

theorem passCell_bounds (g : Grid) (w h : ℕ) (hs : gridShape g w h)
    (c : ℕ × ℕ) (hc : passCell g c = true) : c.1 < w ∧ c.2 < h := by
  rw [passCell_eq_true_iff] at hc
  obtain ⟨row, hrow, hval⟩ := hc
  have h2 : c.2 < g.length := getElem?_some_lt g c.2 row hrow
  have h1 : c.1 < row.length := getElem?_some_lt row c.1 _ hval
  constructor
  · rw [← hs.2 row (List.getElem?_mem hrow)]
    exact h1
  · rw [← hs.1]
    exact h2

theorem Reachable_mono (g g2 : Grid)
    (hmono : ∀ c, passCell g c = true → passCell g2 c = true)
    (s c : ℕ × ℕ) (h : Reachable g s c) : Reachable g2 s c :=
  Relation.ReflTransGen.mono (fun _ b hab => ⟨hab.1, hmono b hab.2⟩) h

theorem mkGrid_shape (w h : ℕ) : gridShape (mkGrid w h) w h :=
  ⟨List.length_replicate h _, fun row hrow => by
    rw [List.eq_of_mem_replicate hrow]
    exact List.length_replicate w true⟩

theorem passCell_mkGrid (w h : ℕ) (c : ℕ × ℕ) :
    passCell (mkGrid w h) c = false := by
  rw [Bool.eq_false_iff]
  intro hpass
  rw [passCell_eq_true_iff] at hpass
  obtain ⟨row, hrow, hval⟩ := hpass
  unfold mkGrid at hrow
  rw [List.getElem?_replicate] at hrow
  by_cases h2 : c.2 < h
  · rw [if_pos h2, Option.some_inj] at hrow
    rw [← hrow, List.getElem?_replicate] at hval
    by_cases h1 : c.1 < w
    · rw [if_pos h1] at hval
      cases hval
    · rw [if_neg h1] at hval
      cases hval
  · rw [if_neg h2] at hrow
    cases hrow

theorem mem_unvisitedNeighbors_spec (g : Grid) (w h x y : ℕ) (p : ℕ × ℕ)
    (hp : p ∈ unvisitedNeighbors g w h x y) :
    ∃ d ∈ mazeDirections, (p.1 : ℤ) = (x : ℤ) + d.1 ∧ (p.2 : ℤ) = (y : ℤ) + d.2 ∧
      0 < (p.1 : ℤ) ∧ (p.1 : ℤ) < (w : ℤ) - 1 ∧
      0 < (p.2 : ℤ) ∧ (p.2 : ℤ) < (h : ℤ) - 1 := by
  unfold unvisitedNeighbors at hp
  obtain ⟨d, hd, hcond⟩ := List.mem_filterMap.mp hp
  by_cases hc : 0 < (x : ℤ) + d.1 ∧ (x : ℤ) + d.1 < (w : ℤ) - 1 ∧
      0 < (y : ℤ) + d.2 ∧ (y : ℤ) + d.2 < (h : ℤ) - 1 ∧
      gridGet g ((x : ℤ) + d.1).toNat ((y : ℤ) + d.2).toNat = true
  · rw [if_pos hc, Option.some_inj] at hcond
    obtain ⟨h1, h2, h3, h4, _⟩ := hc
    have hp1 : p.1 = ((x : ℤ) + d.1).toNat := by rw [← hcond]
    have hp2 : p.2 = ((y : ℤ) + d.2).toNat := by rw [← hcond]
    have e1 : (p.1 : ℤ) = (x : ℤ) + d.1 := by
      rw [hp1]
      exact Int.toNat_of_nonneg h1.le
    have e2 : (p.2 : ℤ) = (y : ℤ) + d.2 := by
      rw [hp2]
      exact Int.toNat_of_nonneg h3.le
    exact ⟨d, hd, e1, e2, by omega, by omega, by omega, by omega⟩
  · rw [if_neg hc] at hcond
    cases hcond

/-- Geometry of one carving step: the wall cell carved between the stack
top and the picked neighbor is grid-adjacent to both, and all written
cells stay in range. -/
theorem carve_step_geometry (g : Grid) (w h x y : ℕ) (p : ℕ × ℕ)
    (hp : p ∈ unvisitedNeighbors g w h x y) (hxw : x < w) (hyh : y < h) :
    adjacentCells (x, y) (carveMid x y p) ∧ adjacentCells (carveMid x y p) p ∧
      (carveMid x y p).1 < w ∧ (carveMid x y p).2 < h ∧ p.1 < w ∧ p.2 < h := by
  obtain ⟨d, hd, e1, e2, b1, b2, b3, b4⟩ := mem_unvisitedNeighbors_spec g w h x y p hp
  simp only [mazeDirections, List.mem_cons, List.not_mem_nil, or_false] at hd
  rcases hd with rfl | rfl | rfl | rfl
  · have e1c : (p.1 : ℤ) = (x : ℤ) + 0 := e1
    have e2c : (p.2 : ℤ) = (y : ℤ) + (-2) := e2
    have hd1 : ((p.1 : ℤ) - (x : ℤ)) / 2 = 0 := by
      have hs : (p.1 : ℤ) - (x : ℤ) = 0 := by omega
      rw [hs]
      decide
    have hd2 : ((p.2 : ℤ) - (y : ℤ)) / 2 = -1 := by
      have hs : (p.2 : ℤ) - (y : ℤ) = -2 := by omega
      rw [hs]
      decide
    have hc1 : ((carveMid x y p).1 : ℤ) = (x : ℤ) := by
      show ((((x : ℤ) + (((p.1 : ℤ) - (x : ℤ)) / 2)).toNat : ℤ)) = (x : ℤ)
      rw [hd1, Int.toNat_of_nonneg (by omega : (0 : ℤ) ≤ (x : ℤ) + 0)]
      omega
    have hc2 : ((carveMid x y p).2 : ℤ) = (y : ℤ) - 1 := by
      show ((((y : ℤ) + (((p.2 : ℤ) - (y : ℤ)) / 2)).toNat : ℤ)) = (y : ℤ) - 1
      rw [hd2, Int.toNat_of_nonneg (by omega : (0 : ℤ) ≤ (y : ℤ) + (-1))]
      omega
    refine ⟨?_, ?_, by omega, by omega, by omega, by omega⟩
    · show (x = (carveMid x y p).1 ∧
          (y + 1 = (carveMid x y p).2 ∨ (carveMid x y p).2 + 1 = y)) ∨
        (y = (carveMid x y p).2 ∧
          (x + 1 = (carveMid x y p).1 ∨ (carveMid x y p).1 + 1 = x))
      exact Or.inl ⟨by omega, Or.inr (by omega)⟩
    · show ((carveMid x y p).1 = p.1 ∧
          ((carveMid x y p).2 + 1 = p.2 ∨ p.2 + 1 = (carveMid x y p).2)) ∨
        ((carveMid x y p).2 = p.2 ∧
          ((carveMid x y p).1 + 1 = p.1 ∨ p.1 + 1 = (carveMid x y p).1))
      exact Or.inl ⟨by omega, Or.inr (by omega)⟩
  · have e1c : (p.1 : ℤ) = (x : ℤ) + 0 := e1
    have e2c : (p.2 : ℤ) = (y : ℤ) + 2 := e2
    have hd1 : ((p.1 : ℤ) - (x : ℤ)) / 2 = 0 := by
      have hs : (p.1 : ℤ) - (x : ℤ) = 0 := by omega
      rw [hs]
      decide
    have hd2 : ((p.2 : ℤ) - (y : ℤ)) / 2 = 1 := by
      have hs : (p.2 : ℤ) - (y : ℤ) = 2 := by omega
      rw [hs]
      decide
    have hc1 : ((carveMid x y p).1 : ℤ) = (x : ℤ) := by
      show ((((x : ℤ) + (((p.1 : ℤ) - (x : ℤ)) / 2)).toNat : ℤ)) = (x : ℤ)
      rw [hd1, Int.toNat_of_nonneg (by omega : (0 : ℤ) ≤ (x : ℤ) + 0)]
      omega
    have hc2 : ((carveMid x y p).2 : ℤ) = (y : ℤ) + 1 := by
      show ((((y : ℤ) + (((p.2 : ℤ) - (y : ℤ)) / 2)).toNat : ℤ)) = (y : ℤ) + 1
      rw [hd2, Int.toNat_of_nonneg (by omega : (0 : ℤ) ≤ (y : ℤ) + 1)]
    refine ⟨?_, ?_, by omega, by omega, by omega, by omega⟩
    · show (x = (carveMid x y p).1 ∧
          (y + 1 = (carveMid x y p).2 ∨ (carveMid x y p).2 + 1 = y)) ∨
        (y = (carveMid x y p).2 ∧
          (x + 1 = (carveMid x y p).1 ∨ (carveMid x y p).1 + 1 = x))
      exact Or.inl ⟨by omega, Or.inl (by omega)⟩
    · show ((carveMid x y p).1 = p.1 ∧
          ((carveMid x y p).2 + 1 = p.2 ∨ p.2 + 1 = (carveMid x y p).2)) ∨
        ((carveMid x y p).2 = p.2 ∧
          ((carveMid x y p).1 + 1 = p.1 ∨ p.1 + 1 = (carveMid x y p).1))
      exact Or.inl ⟨by omega, Or.inl (by omega)⟩
  · have e1c : (p.1 : ℤ) = (x : ℤ) + (-2) := e1
    have e2c : (p.2 : ℤ) = (y : ℤ) + 0 := e2
    have hd1 : ((p.1 : ℤ) - (x : ℤ)) / 2 = -1 := by
      have hs : (p.1 : ℤ) - (x : ℤ) = -2 := by omega
      rw [hs]
      decide
    have hd2 : ((p.2 : ℤ) - (y : ℤ)) / 2 = 0 := by
      have hs : (p.2 : ℤ) - (y : ℤ) = 0 := by omega
      rw [hs]
      decide
    have hc1 : ((carveMid x y p).1 : ℤ) = (x : ℤ) - 1 := by
      show ((((x : ℤ) + (((p.1 : ℤ) - (x : ℤ)) / 2)).toNat : ℤ)) = (x : ℤ) - 1
      rw [hd1, Int.toNat_of_nonneg (by omega : (0 : ℤ) ≤ (x : ℤ) + (-1))]
      omega
    have hc2 : ((carveMid x y p).2 : ℤ) = (y : ℤ) := by
      show ((((y : ℤ) + (((p.2 : ℤ) - (y : ℤ)) / 2)).toNat : ℤ)) = (y : ℤ)
      rw [hd2, Int.toNat_of_nonneg (by omega : (0 : ℤ) ≤ (y : ℤ) + 0)]
      omega
    refine ⟨?_, ?_, by omega, by omega, by omega, by omega⟩
    · show (x = (carveMid x y p).1 ∧
          (y + 1 = (carveMid x y p).2 ∨ (carveMid x y p).2 + 1 = y)) ∨
        (y = (carveMid x y p).2 ∧
          (x + 1 = (carveMid x y p).1 ∨ (carveMid x y p).1 + 1 = x))
      exact Or.inr ⟨by omega, Or.inr (by omega)⟩
    · show ((carveMid x y p).1 = p.1 ∧
          ((carveMid x y p).2 + 1 = p.2 ∨ p.2 + 1 = (carveMid x y p).2)) ∨
        ((carveMid x y p).2 = p.2 ∧
          ((carveMid x y p).1 + 1 = p.1 ∨ p.1 + 1 = (carveMid x y p).1))
      exact Or.inr ⟨by omega, Or.inr (by omega)⟩
  · have e1c : (p.1 : ℤ) = (x : ℤ) + 2 := e1
    have e2c : (p.2 : ℤ) = (y : ℤ) + 0 := e2
    have hd1 : ((p.1 : ℤ) - (x : ℤ)) / 2 = 1 := by
      have hs : (p.1 : ℤ) - (x : ℤ) = 2 := by omega
      rw [hs]
      decide
    have hd2 : ((p.2 : ℤ) - (y : ℤ)) / 2 = 0 := by
      have hs : (p.2 : ℤ) - (y : ℤ) = 0 := by omega
      rw [hs]
      decide
    have hc1 : ((carveMid x y p).1 : ℤ) = (x : ℤ) + 1 := by
      show ((((x : ℤ) + (((p.1 : ℤ) - (x : ℤ)) / 2)).toNat : ℤ)) = (x : ℤ) + 1
      rw [hd1, Int.toNat_of_nonneg (by omega : (0 : ℤ) ≤ (x : ℤ) + 1)]
    have hc2 : ((carveMid x y p).2 : ℤ) = (y : ℤ) := by
      show ((((y : ℤ) + (((p.2 : ℤ) - (y : ℤ)) / 2)).toNat : ℤ)) = (y : ℤ)
      rw [hd2, Int.toNat_of_nonneg (by omega : (0 : ℤ) ≤ (y : ℤ) + 0)]
      omega
    refine ⟨?_, ?_, by omega, by omega, by omega, by omega⟩
    · show (x = (carveMid x y p).1 ∧
          (y + 1 = (carveMid x y p).2 ∨ (carveMid x y p).2 + 1 = y)) ∨
        (y = (carveMid x y p).2 ∧
          (x + 1 = (carveMid x y p).1 ∨ (carveMid x y p).1 + 1 = x))
      exact Or.inr ⟨by omega, Or.inl (by omega)⟩
    · show ((carveMid x y p).1 = p.1 ∧
          ((carveMid x y p).2 + 1 = p.2 ∨ p.2 + 1 = (carveMid x y p).2)) ∨
        ((carveMid x y p).2 = p.2 ∧
          ((carveMid x y p).1 + 1 = p.1 ∨ p.1 + 1 = (carveMid x y p).1))
      exact Or.inr ⟨by omega, Or.inl (by omega)⟩

/-- Main loop invariant of the carving phase: if every stack cell is a
passage and every passage is reachable from `start`, then after the loop
finishes every passage of the resulting grid is still reachable from
`start`. -/
theorem carveLoopF_reach (w h : ℕ) (choice : ℕ → ℕ) (start : ℕ × ℕ) :
    ∀ (fuel : ℕ) (g : Grid) (stack : List (ℕ × ℕ)) (t : ℕ),
      gridShape g w h →
      (∀ c ∈ stack, passCell g c = true) →
      (∀ c, passCell g c = true → Reachable g start c) →
      ∀ c, passCell (carveLoopF w h choice fuel g stack t) c = true →
        Reachable (carveLoopF w h choice fuel g stack t) start c := by
  intro fuel
  induction fuel with
  | zero =>
    intro g stack t _ _ hreach c hc
    exact hreach c hc
  | succ n ih =>
    intro g stack t hshape hstack hreach c
    rcases stack with _ | ⟨⟨x, y⟩, stack⟩
    · intro hc
      exact hreach c hc
    · by_cases hne : (unvisitedNeighbors g w h x y).length ≠ 0
      · rw [carveLoopF_push w h choice n g x y stack t hne]
        intro hc
        have hpmem : carvePick w h choice g x y t hne ∈ unvisitedNeighbors g w h x y :=
          List.get_mem _ _ _
        have hxy : passCell g (x, y) = true := hstack (x, y) (List.mem_cons_self _ _)
        have hbounds := passCell_bounds g w h hshape (x, y) hxy
        have hxw : x < w := hbounds.1
        have hyh : y < h := hbounds.2
        obtain ⟨hadjA, hadjB, hmw, hmh, hpw, hph⟩ :=
          carve_step_geometry g w h x y _ hpmem hxw hyh
        have hshape1 := gridShape_gridSet g w h hshape
          (carveMid x y (carvePick w h choice g x y t hne)).1
          (carveMid x y (carvePick w h choice g x y t hne)).2 false
        have hshape2 := gridShape_gridSet _ w h hshape1
          (carvePick w h choice g x y t hne).1
          (carvePick w h choice g x y t hne).2 false
        have hmono : ∀ c2, passCell g c2 = true →
            passCell (gridSet (gridSet g
                (carveMid x y (carvePick w h choice g x y t hne)).1
                (carveMid x y (carvePick w h choice g x y t hne)).2 false)
              (carvePick w h choice g x y t hne).1
              (carvePick w h choice g x y t hne).2 false) c2 = true :=
          fun c2 h2 => passCell_gridSet_mono _ _ _ _ (passCell_gridSet_mono _ _ _ _ h2)
        have hmid2 : passCell (gridSet (gridSet g
              (carveMid x y (carvePick w h choice g x y t hne)).1
              (carveMid x y (carvePick w h choice g x y t hne)).2 false)
            (carvePick w h choice g x y t hne).1
            (carvePick w h choice g x y t hne).2 false)
            (carveMid x y (carvePick w h choice g x y t hne)) = true :=
          passCell_gridSet_mono _ _ _ _
            (passCell_gridSet_self g w h hshape _ _ hmw hmh)
        have hpick2 : passCell (gridSet (gridSet g
              (carveMid x y (carvePick w h choice g x y t hne)).1
              (carveMid x y (carvePick w h choice g x y t hne)).2 false)
            (carvePick w h choice g x y t hne).1
            (carvePick w h choice g x y t hne).2 false)
            (carvePick w h choice g x y t hne) = true :=
          passCell_gridSet_self _ w h hshape1 _ _ hpw hph
        have hstack2 : ∀ c2 ∈ (carvePick w h choice g x y t hne :: (x, y) :: stack),
            passCell (gridSet (gridSet g
                (carveMid x y (carvePick w h choice g x y t hne)).1
                (carveMid x y (carvePick w h choice g x y t hne)).2 false)
              (carvePick w h choice g x y t hne).1
              (carvePick w h choice g x y t hne).2 false) c2 = true := by
          intro c2 hc2
          rcases List.mem_cons.mp hc2 with rfl | hc2
          · exact hpick2
          · exact hmono c2 (hstack c2 hc2)
        have hreachxy := Reachable_mono g _ hmono start (x, y) (hreach (x, y) hxy)
        have hreachmid := Relation.ReflTransGen.tail hreachxy ⟨hadjA, hmid2⟩
        have hreachpick := Relation.ReflTransGen.tail hreachmid ⟨hadjB, hpick2⟩
        have hreach2 : ∀ c2, passCell (gridSet (gridSet g
              (carveMid x y (carvePick w h choice g x y t hne)).1
              (carveMid x y (carvePick w h choice g x y t hne)).2 false)
            (carvePick w h choice g x y t hne).1
            (carvePick w h choice g x y t hne).2 false) c2 = true →
            Reachable (gridSet (gridSet g
                (carveMid x y (carvePick w h choice g x y t hne)).1
                (carveMid x y (carvePick w h choice g x y t hne)).2 false)
              (carvePick w h choice g x y t hne).1
              (carvePick w h choice g x y t hne).2 false) start c2 := by
          intro c2 hc2
          rcases passCell_gridSet_cases _ _ _ _ hc2 with heq | hc2i
          · subst heq
            exact hreachpick
          · rcases passCell_gridSet_cases _ _ _ _ hc2i with heq | hc2g
            · subst heq
              exact hreachmid
            · exact Reachable_mono g _ hmono start c2 (hreach c2 hc2g)
        exact ih _ _ _ hshape2 hstack2 hreach2 c hc
      · rw [carveLoopF_pop w h choice n g x y stack t hne]
        intro hc
        exact ih g stack t hshape
          (fun c2 hc2 => hstack c2 (List.mem_cons_of_mem _ hc2)) hreach c hc

theorem adjacentCells_to_12_4 (c : ℕ × ℕ) (hadj : adjacentCells c (12, 4)) :
    c = (11, 4) ∨ c = (13, 4) ∨ c = (12, 3) ∨ c = (12, 5) := by
  obtain ⟨cx, cy⟩ := c
  have hadj2 : (cx = 12 ∧ (cy + 1 = 4 ∨ 4 + 1 = cy)) ∨
      (cy = 4 ∧ (cx + 1 = 12 ∨ 12 + 1 = cx)) := hadj
  simp only [Prod.mk.injEq]
  omega

/-- The oracle values under which the full wall pipeline isolates a cell:
`choice` drives `random.choice` in the carving loop, the `randint` draws
always select grid cell `(12, 4)` for the extra passages, and every
`random.random() < 0.5` neighbor-clearing test fails. -/
def cexChoice (t : ℕ) : ℕ := (13 * t + 7) % 8

def cexExtraDraw (n : ℕ) : ℕ := if n % 2 = 0 then 10 else 2

def cexCoin (_i : ℕ) : Bool := false

/-- The logical passage grid of `WallManager._create_walls` on the
1020-by-1020 arena (17-by-17 cell grid) under the counterexample oracles. -/
def cexMazeGrid : Grid := createWallsGrid 1020 1020 cexChoice cexExtraDraw cexCoin

theorem cexMazeGrid_fueled : cexMazeGrid =
    clearBorders (add_extra_passages 17 17 cexExtraDraw cexCoin
      (clear_area (carveLoopF 17 17 cexChoice 600 (gridSet (mkGrid 17 17) 9 9 false)
        [(9, 9)] 0) 17 17 8 8 4) 19) 17 17 := by
  have h1 : cexMazeGrid = clearBorders (add_extra_passages 17 17 cexExtraDraw cexCoin
      (clear_area (generate 17 17 cexChoice 9 9) 17 17 8 8 4) 19) 17 17 := rfl
  have h2 : carveLoopF 17 17 cexChoice 600 (gridSet (mkGrid 17 17) 9 9 false)
      [(9, 9)] 0 =
      carveLoop 17 17 cexChoice (gridSet (mkGrid 17 17) 9 9 false) [(9, 9)] 0 :=
    carveLoopF_eq 17 17 cexChoice 600 _ _ 0 (by decide)
  rw [h1, generate, ← h2]

/-- C9 (amended): the recursive-backtracking carve phase on its own never
creates an isolated passage region — for every choice oracle and every
in-range start cell, every passage cell of the grid produced by
`MazeGenerator.generate` is reachable from the start cell by 4-neighbor
flood fill through passage cells.  The full `_create_walls` pipeline does
not have this property: `add_extra_passages` can carve a cell whose four
orthogonal neighbors are all walls (see the counterexample). -/
theorem c9_carve_reachable (w h : ℕ) (choice : ℕ → ℕ) (sx sy : ℕ)
    (hsx : sx < w) (hsy : sy < h) (c : ℕ × ℕ)
    (hc : passCell (generate w h choice sx sy) c = true) :
    Reachable (generate w h choice sx sy) (sx, sy) c := by
  have hfe := carveLoopF_eq w h choice
    (2 * countTrue (gridSet (mkGrid w h) sx sy false) + 2)
    (gridSet (mkGrid w h) sx sy false) [(sx, sy)] 0
    (by simp only [List.length_cons, List.length_nil]; omega)
  rw [generate] at hc ⊢
  rw [← hfe] at hc ⊢
  refine carveLoopF_reach w h choice (sx, sy) _ _ _ 0 ?_ ?_ ?_ c hc
  · exact gridShape_gridSet _ w h (mkGrid_shape w h) sx sy false
  · intro c2 hc2
    rw [List.mem_singleton] at hc2
    subst hc2
    exact passCell_gridSet_self _ w h (mkGrid_shape w h) sx sy hsx hsy
  · intro c2 hc2
    rcases passCell_gridSet_cases _ _ _ _ hc2 with heq | hmk
    · subst heq
      exact Relation.ReflTransGen.refl
    · rw [passCell_mkGrid] at hmk
      cases hmk

/-- C9 witness: on the 17-by-17 grid with the always-first choice oracle,
cell `(1, 1)` is carved, so the theorem yields its reachability from the
start cell `(9, 9)`. -/
theorem c9_carve_reachable_witness :
    (9 : ℕ) < 17 ∧ passCell (generate 17 17 (fun _ => 0) 9 9) (1, 1) = true ∧
      Reachable (generate 17 17 (fun _ => 0) 9 9) (9, 9) (1, 1) := by
  have hgen : generate 17 17 (fun _ => 0) 9 9 =
      carveLoopF 17 17 (fun _ => 0) 600 (gridSet (mkGrid 17 17) 9 9 false)
        [(9, 9)] 0 := by
    rw [generate]
    exact (carveLoopF_eq 17 17 (fun _ => 0) 600 _ _ 0 (by decide)).symm
  have hpass : passCell (generate 17 17 (fun _ => 0) 9 9) (1, 1) = true := by
    rw [hgen]
    decide
  exact ⟨by decide, hpass,
    c9_carve_reachable 17 17 (fun _ => 0) 9 9 (by decide) (by decide) (1, 1) hpass⟩

set_option maxRecDepth 40000 in
/-- C9 counterexample: under the oracles `cexChoice`, `cexExtraDraw` and
`cexCoin`, the full `_create_walls` pipeline on the 1020-by-1020 arena
produces a passage cell `(12, 4)` that is unreachable by 4-neighbor flood
fill from the colony spawn cell `(8, 8)` — all four of its orthogonal
neighbors are walls, so a fully isolated passage region exists and the
claimed invariant fails. -/
theorem c9_counterexample :
    passCell cexMazeGrid (12, 4) = true ∧ ¬ Reachable cexMazeGrid (8, 8) (12, 4) := by
  have hpass : passCell cexMazeGrid (12, 4) = true := by
    rw [cexMazeGrid_fueled]
    decide
  refine ⟨hpass, ?_⟩
  intro hreach
  rcases Relation.ReflTransGen.cases_tail hreach with heq | ⟨b, hb, hstep⟩
  · exact absurd heq (by decide)
  · have hb4 := adjacentCells_to_12_4 b hstep.1
    rcases Relation.ReflTransGen.cases_tail hb with heq2 | ⟨a, _, hstep2⟩
    · rcases hb4 with rfl | rfl | rfl | rfl <;> exact absurd heq2 (by decide)
    · have hbpass : passCell cexMazeGrid b = true := hstep2.2
      rw [cexMazeGrid_fueled] at hbpass
      rcases hb4 with rfl | rfl | rfl | rfl <;> exact absurd hbpass (by decide)

end AntSim
